import Mathlib

/-!
# slock / slock-pam: a shallow embedding of the lock engine

The repository holds two variants of one screen locker, `src/slock-pam.c` and
`src/slock.c`.  The functions `blank`, `readpw`, `pamconv`, `unlockscreen`,
`lockscreen` and `main` are embedded below as executable Lean functions.

Conventions of the embedding:

* every call into Xlib / libc / PAM that the claims talk about is recorded, in
  program order, in a trace of `Act` values;
* a dereference of a NULL pointer and an access outside an allocated object
  end the run with the result `fault`;
* `unsigned int` arithmetic is written on `Nat` with an explicit `% 2 ^ 32`;
* where the two files differ, the definition branches on `Variant`
  (`Variant.pam` is `slock-pam.c`, `Variant.plain` is `slock.c`).
-/

namespace Slock

/-! ## Constants -/

/-- `#define PASSLEN 256`. -/
def PASSLEN : Nat := 256

/-- The palette indices `enum { INIT, INPUT, EMPTY, NUMCOLS }`. -/
inductive Color
  | INIT
  | INPUT
  | EMPTY
  deriving DecidableEq, Repr

/-- Value of a palette index as a C `int`. -/
def Color.idx : Color → Nat
  | .INIT => 0
  | .INPUT => 1
  | .EMPTY => 2

/-- The enumerator `NUMCOLS`. -/
def NUMCOLS : Nat := 3

/-- Which of the two source files a definition follows. -/
inductive Variant
  | pam
  | plain
  deriving DecidableEq, Repr

/-- Keysym values of `X11/keysymdef.h` used by `readpw`. -/
def XK_Return : Nat := 0xff0d
/-- Keysym `XK_Escape`. -/
def XK_Escape : Nat := 0xff1b
/-- Keysym `XK_BackSpace`. -/
def XK_BackSpace : Nat := 0xff08
/-- Keysym `XK_KP_Enter`. -/
def XK_KP_Enter : Nat := 0xff8d
/-- Keysym `XK_KP_0`. -/
def XK_KP_0 : Nat := 0xffb0
/-- Keysym `XK_KP_9`. -/
def XK_KP_9 : Nat := 0xffb9
/-- Keysym `XK_0`. -/
def XK_0 : Nat := 0x30

/-- Macro `IsKeypadKey` of `X11/Xutil.h`: `XK_KP_Space <= k <= XK_KP_Equal`. -/
def IsKeypadKey (k : Nat) : Bool := decide (0xff80 ≤ k) && decide (k ≤ 0xffbd)
/-- Macro `IsFunctionKey` of `X11/Xutil.h`: `XK_F1 <= k <= XK_F35`. -/
def IsFunctionKey (k : Nat) : Bool := decide (0xffbe ≤ k) && decide (k ≤ 0xffe0)
/-- Macro `IsMiscFunctionKey` of `X11/Xutil.h`: `XK_Select <= k <= XK_Break`. -/
def IsMiscFunctionKey (k : Nat) : Bool := decide (0xff60 ≤ k) && decide (k ≤ 0xff6b)
/-- Macro `IsPFKey` of `X11/Xutil.h`: `XK_KP_F1 <= k <= XK_KP_F4`. -/
def IsPFKey (k : Nat) : Bool := decide (0xff91 ≤ k) && decide (k ≤ 0xff94)
/-- Macro `IsPrivateKeypadKey` of `X11/Xutil.h`. -/
def IsPrivateKeypadKey (k : Nat) : Bool := decide (0x11000000 ≤ k) && decide (k ≤ 0x1100ffff)

/-- Function `iscntrl` of `ctype.h` in the C locale, on a byte value. -/
def iscntrl (c : Nat) : Bool := decide (c < 32) || decide (c = 127)

/-- X protocol grab status `GrabSuccess`. -/
def GrabSuccess : Int := 0
/-- X protocol grab status `AlreadyGrabbed`. -/
def AlreadyGrabbed : Int := 1
/-- PAM return code `PAM_SUCCESS`. -/
def PAM_SUCCESS : Int := 0
/-- PAM message style `PAM_PROMPT_ECHO_OFF`. -/
def PAM_PROMPT_ECHO_OFF : Int := 1

/-! ## Data model -/

/-- The record `Lock`: `int screen; Window root, win; Pixmap pmap;
unsigned long colors[NUMCOLS];`. -/
structure Lock where
  screen : Int
  root : Nat
  win : Nat
  pmap : Nat
  colors : List Nat
  deriving DecidableEq, Repr

/-- Observable calls, in program order. -/
inductive Act
  | blankCall (color : Color)
  | XSetWindowBackground (win pixel : Nat)
  | XClearWindow (win : Nat)
  | XResizeWindow (win width height : Nat)
  | XRaiseWindow (win : Nat)
  | XBell (percent : Int)
  | XUngrabPointer
  | XUngrabKeyboard
  | XFreeColors (screen : Int) (pixels : List Nat) (npixels : Nat)
  | XFreePixmap (pmap : Nat)
  | XDestroyWindow (win : Nat)
  | freeLock (lock : Lock)
  | XAllocNamedColor (screen : Int) (i : Nat)
  | XCreateWindow (root : Nat)
  | XCreateBitmapFromData (win : Nat)
  | XCreatePixmapCursor (pmap : Nat)
  | XDefineCursor (win : Nat)
  | XGrabPointer (root : Nat)
  | XGrabKeyboard (root : Nat)
  | nanosleep
  | XMapRaised (win : Nat)
  | XRRSelectInput (win : Nat)
  | XSelectInput (root : Nat)
  | warnKeyboard (screen : Int)
  | warnPointer (screen : Int)
  | XSync
  | fork
  | pam_start
  | pam_authenticate (result : Int)
  | pam_end
  | freeLocks
  | freePasswd
  | XCloseDisplay
  deriving DecidableEq, Repr

/-- How a run of a `void` helper ends: normally, or in a fault (NULL
dereference, access outside an object). -/
inductive Status
  | ok
  | fault
  deriving DecidableEq, Repr

/-! ## `blank` -/

/-- The loop of `blank` over `locks[screen]`, `screen < nscreens`; the array
is the list of entries, `none` being a NULL entry. -/
def blankLoop (color : Color) : List (Option Lock) → List Act × Status
  | [] => ([], .ok)
  | none :: _ => ([], .fault)
  | some l :: rest =>
    let r := blankLoop color rest
    (Act.XSetWindowBackground l.win (l.colors.getD color.idx 0)
      :: Act.XClearWindow l.win :: r.1, r.2)

/-- Function `blank(dpy, color)`; the first trace entry marks the call. -/
def blank (locks : List (Option Lock)) (color : Color) : List Act × Status :=
  let r := blankLoop color locks
  (Act.blankCall color :: r.1, r.2)

/-! ## `unlockscreen` -/

/-- Function `unlockscreen(dpy, lock)`: `dpyNull` says `dpy == NULL`, a NULL
record is `none`.  Only `slock-pam.c` calls `XUngrabKeyboard`. -/
def unlockscreen (v : Variant) (dpyNull : Bool) (lock : Option Lock) : List Act :=
  match dpyNull, lock with
  | true, _ => []
  | false, none => []
  | false, some l =>
    [Act.XUngrabPointer]
      ++ (match v with
          | .pam => [Act.XUngrabKeyboard]
          | .plain => [])
      ++ [Act.XFreeColors l.screen l.colors NUMCOLS,
          Act.XFreePixmap l.pmap,
          Act.XDestroyWindow l.win,
          Act.freeLock l]

/-! ## `readpw` -/

/-- The events `XNextEvent` delivers: a key press with the keysym and text
`XLookupString` reports for it (`num` is the length of `text`), a RandR
screen-change notification, or anything else. -/
inductive XEvent
  | KeyPress (ksym : Nat) (text : List Nat)
  | RRScreenChangeNotify (window width height : Nat)
  | other
  deriving DecidableEq, Repr

/-- Value of the local pointer variable `passwd`: still the buffer the caller
passed in, or NULL. -/
inductive Ptr
  | caller
  | null
  deriving DecidableEq, Repr

/-- Locals of `readpw` together with the bytes of the caller's buffer. -/
structure PwState where
  passwd : Ptr
  mem : List Nat
  len : Nat
  llen : Nat
  deriving DecidableEq, Repr

/-- A one byte store `p[i] = b`; `none` is a store through NULL or outside
the buffer. -/
def store (p : Ptr) (mem : List Nat) (i b : Nat) : Option (List Nat) :=
  match p with
  | .null => none
  | .caller => if i < mem.length then some (mem.set i b) else none

/-- Call `memcpy(p + off, src, num)` with `num` the length of `src`. -/
def memcpy (p : Ptr) : List Nat → Nat → List Nat → Option (List Nat)
  | mem, _, [] => some mem
  | mem, off, b :: bs =>
    match store p mem off b with
    | none => none
    | some m => memcpy p m (off + 1) bs

/-- Effect of `explicit_bzero(&passwd, sizeof(passwd))` in `slock-pam.c`: the
bytes of the pointer variable itself are cleared; `slock.c` has no such
call. -/
def bzeroPtr (v : Variant) (p : Ptr) : Ptr :=
  match v with
  | .pam => .null
  | .plain => p

/-- Keypad normalisation at the top of the `KeyPress` branch. -/
def normalize (ksym : Nat) : Nat :=
  if IsKeypadKey ksym then
    if ksym = XK_KP_Enter then XK_Return
    else if XK_KP_0 ≤ ksym ∧ ksym ≤ XK_KP_9 then (ksym - XK_KP_0) + XK_0
    else ksym
  else ksym

/-- The key classes that `readpw` skips with `continue`. -/
def ignored (ksym : Nat) : Bool :=
  IsFunctionKey ksym || IsKeypadKey ksym || IsMiscFunctionKey ksym
    || IsPFKey ksym || IsPrivateKeypadKey ksym

/-- Where control goes after part of the loop body. -/
inductive Flow
  | next (s : PwState)
  | returned (s : PwState)
  | fault
  deriving DecidableEq, Repr

/-- The `switch (ksym)` of `readpw`. -/
def keySwitch (v : Variant) (s : PwState) (ksym : Nat) (text : List Nat) : Flow :=
  if ksym = XK_Return then
    match store s.passwd s.mem s.len 0 with
    | none => .fault
    | some m => .returned { s with mem := m, passwd := bzeroPtr v s.passwd }
  else if ksym = XK_Escape then
    .next { s with len := 0, passwd := bzeroPtr v s.passwd }
  else if ksym = XK_BackSpace then
    if s.len ≠ 0 then
      match v with
      | .pam =>
        match store s.passwd s.mem s.len 0 with
        | none => .fault
        | some m => .next { s with mem := m, len := s.len - 1 }
      | .plain => .next { s with len := s.len - 1 }
    else .next s
  else
    if text.length ≠ 0 ∧ iscntrl (text.headD 0) = false
        ∧ (s.len + text.length) % 2 ^ 32 < PASSLEN then
      match memcpy s.passwd s.mem s.len text with
      | none => .fault
      | some m =>
        match store s.passwd m ((s.len + text.length) % 2 ^ 32) 0 with
        | none => .fault
        | some m2 => .next { s with mem := m2, len := (s.len + text.length) % 2 ^ 32 }
    else .next s

/-- The repaint after the switch: `llen == 0 && len != 0` paints `INPUT`,
`llen != 0 && len == 0` paints `EMPTY`; then `llen = len`. -/
def repaint (locks : List (Option Lock)) (s : PwState) : List Act × Flow :=
  if s.llen = 0 ∧ s.len ≠ 0 then
    match blank locks .INPUT with
    | (t, .ok) => (t, .next { s with llen := s.len })
    | (t, .fault) => (t, .fault)
  else if s.llen ≠ 0 ∧ s.len = 0 then
    match blank locks .EMPTY with
    | (t, .ok) => (t, .next { s with llen := s.len })
    | (t, .fault) => (t, .fault)
  else ([], .next { s with llen := s.len })

/-- The resize loop of the RandR branch. -/
def resizeLoop (window width height : Nat) : List (Option Lock) → List Act × Status
  | [] => ([], .ok)
  | none :: _ => ([], .fault)
  | some l :: rest =>
    let r := resizeLoop window width height rest
    if l.win = window then
      (Act.XResizeWindow l.win width height :: Act.XClearWindow l.win :: r.1, r.2)
    else r

/-- The raise loop of the final `else` branch. -/
def raiseLoop : List (Option Lock) → List Act × Status
  | [] => ([], .ok)
  | none :: _ => ([], .fault)
  | some l :: rest =>
    let r := raiseLoop rest
    (Act.XRaiseWindow l.win :: r.1, r.2)

/-- One pass through the body of `while (!XNextEvent(dpy, &ev))`. -/
def readpwStep (v : Variant) (rr : Bool) (locks : List (Option Lock))
    (s : PwState) (ev : XEvent) : List Act × Flow :=
  match ev with
  | .KeyPress ksym text =>
    if ignored (normalize ksym) then ([], .next s)
    else
      match keySwitch v s (normalize ksym) text with
      | .returned s1 => ([], .returned s1)
      | .fault => ([], .fault)
      | .next s1 => repaint locks s1
  | .RRScreenChangeNotify window width height =>
    if rr then
      match resizeLoop window width height locks with
      | (t, .ok) => (t, .next s)
      | (t, .fault) => (t, .fault)
    else
      match raiseLoop locks with
      | (t, .ok) => (t, .next s)
      | (t, .fault) => (t, .fault)
  | .other =>
    match raiseLoop locks with
    | (t, .ok) => (t, .next s)
    | (t, .fault) => (t, .fault)

/-- How a call of `readpw` stands after a finite list of events: it returned
(with the events it did not consume), it is waiting in `XNextEvent` for the
next event, or it faulted. -/
inductive Exit
  | returned (s : PwState) (rest : List XEvent)
  | waiting (s : PwState)
  | fault
  deriving DecidableEq, Repr

/-- The event loop of `readpw`. -/
def readpwLoop (v : Variant) (rr : Bool) (locks : List (Option Lock)) :
    PwState → List XEvent → List Act × Exit
  | s, [] => ([], .waiting s)
  | s, ev :: evs =>
    match readpwStep v rr locks s ev with
    | (t, .returned s1) => (t, .returned s1 evs)
    | (t, .fault) => (t, .fault)
    | (t, .next s1) =>
      let r := readpwLoop v rr locks s1 evs
      (t ++ r.1, r.2)

/-- Function `readpw(dpy, passwd)`: `mem` holds the bytes of the buffer the
caller passed in; `len = llen = 0` on entry. -/
def readpw (v : Variant) (rr : Bool) (locks : List (Option Lock))
    (mem : List Nat) (evs : List XEvent) : List Act × Exit :=
  readpwLoop v rr locks { passwd := .caller, mem := mem, len := 0, llen := 0 } evs

/-! ## `pamconv` -/

/-- One `struct pam_response`: `char *resp` (NULL is `none`, otherwise the
bytes of the buffer it points to) and `int resp_retcode`. -/
structure PamResponse where
  resp : Option (List Nat)
  resp_retcode : Int
  deriving DecidableEq, Repr

/-- How a call of `pamconv` stands after a finite list of events. -/
inductive ConvExit
  | done (ret : Int) (reply : List PamResponse) (rest : List XEvent)
  | waiting
  | died
  | fault
  deriving DecidableEq, Repr

/-- The loop `for (i = 0; i < num_msg; ++i)` of `pamconv`, from index `i` on,
over the remaining `msg[i]->msg_style` values.

The parameter `resp` has type `struct pam_response **`: PAM passes the address
of ONE pointer variable, into which `pamconv` has stored the address of the
`calloc`ed array `reply`.  So `resp[0]` is that pointer and `resp[0]->f` is
field `f` of `reply[0]`, while `resp[i]` for `i > 0` lies outside the
pointer variable.  `fresh` holds the (arbitrary) bytes of a new
`malloc(PASSLEN)` block. -/
def pamconvLoop (v : Variant) (rr : Bool) (locks : List (Option Lock))
    (mallocOk : Bool) (fresh : List Nat) :
    Nat → List Int → List PamResponse → List XEvent → List Act × ConvExit
  | _, [], reply, evs => ([], .done PAM_SUCCESS reply evs)
  | i, style :: styles, reply, evs =>
    if i ≠ 0 then ([], .fault)
    else
      match reply with
      | [] => ([], .fault)
      | r0 :: rs =>
        if style = PAM_PROMPT_ECHO_OFF then
          if mallocOk = false then ([], .died)
          else
            match readpw v rr locks fresh evs with
            | (t, .fault) => (t, .fault)
            | (t, .waiting _) => (t, .waiting)
            | (t, .returned s rest) =>
              let r := pamconvLoop v rr locks mallocOk fresh (i + 1) styles
                ({ resp := some s.mem, resp_retcode := 0 } :: rs) rest
              (t ++ r.1, r.2)
        else
          pamconvLoop v rr locks mallocOk fresh (i + 1) styles
            ({ r0 with resp_retcode := 0 } :: rs) evs

/-- Function `pamconv(num_msg, msg, resp, appdata_ptr)` with `num_msg` the
length of `styles`.  `*resp = calloc(num_msg, ...)` yields `num_msg` zeroed
records, or NULL when `callocOk` is false (the result is not checked). -/
def pamconv (v : Variant) (rr : Bool) (locks : List (Option Lock))
    (callocOk mallocOk : Bool) (fresh : List Nat)
    (styles : List Int) (evs : List XEvent) : List Act × ConvExit :=
  pamconvLoop v rr locks mallocOk fresh 0 styles
    (if callocOk then List.replicate styles.length { resp := none, resp_retcode := 0 }
     else [])
    evs

/-! ## `lockscreen` of `slock-pam.c` -/

/-- What the X server answers for one screen: the root window, the pixel
allocated for `colorname[i]`, the ids of the created window and bitmap, and
the status returned by the `j`-th `XGrabPointer` / `XGrabKeyboard` request
(`j` counted from 0). -/
structure XScreen where
  root : Nat
  pixel : Nat → Nat
  win : Nat
  pmap : Nat
  ptgrab : Nat → Int
  kbgrab : Nat → Int

/-- Result of the grab loop: the calls made, whether the function returned
the lock from inside the loop, and the final `ptgrab` / `kbgrab`. -/
structure GrabRun where
  trace : List Act
  locked : Bool
  ptgrab : Int
  kbgrab : Int
  deriving DecidableEq, Repr

/-- The loop `for (tries = 6; tries; --tries)` of `lockscreen`, entered with
`tries` rounds left, the current `ptgrab` / `kbgrab`, and the numbers `np` /
`nk` of pointer / keyboard requests made so far. -/
def grabLoop (rr : Bool) (lock : Lock) (pt kb : Nat → Int) :
    Nat → Int → Int → Nat → Nat → GrabRun
  | 0, ptgrab, kbgrab, _, _ =>
    { trace := [], locked := false, ptgrab := ptgrab, kbgrab := kbgrab }
  | tries + 1, ptgrab, kbgrab, np, nk =>
    let ptReq := decide (ptgrab ≠ GrabSuccess)
    let ptgrab1 := if ptReq then pt np else ptgrab
    let np1 := if ptReq then np + 1 else np
    let kbReq := decide (kbgrab ≠ GrabSuccess)
    let kbgrab1 := if kbReq then kb nk else kbgrab
    let nk1 := if kbReq then nk + 1 else nk
    let reqs := (if ptReq then [Act.XGrabPointer lock.root] else [])
      ++ (if kbReq then [Act.XGrabKeyboard lock.root] else [])
    if ptgrab1 = GrabSuccess ∧ kbgrab1 = GrabSuccess then
      { trace := reqs ++ [Act.XMapRaised lock.win]
          ++ (if rr then [Act.XRRSelectInput lock.win] else [])
          ++ [Act.XSelectInput lock.root],
        locked := true, ptgrab := ptgrab1, kbgrab := kbgrab1 }
    else if (ptgrab1 ≠ AlreadyGrabbed ∧ ptgrab1 ≠ GrabSuccess)
        ∨ (kbgrab1 ≠ AlreadyGrabbed ∧ kbgrab1 ≠ GrabSuccess) then
      { trace := reqs, locked := false, ptgrab := ptgrab1, kbgrab := kbgrab1 }
    else
      let r := grabLoop rr lock pt kb tries ptgrab1 kbgrab1 np1 nk1
      { r with trace := reqs ++ Act.nanosleep :: r.trace }

/-- Function `lockscreen(dpy, screen)` of `slock-pam.c`. -/
def lockscreen (dpyNull : Bool) (screen : Int) (mallocOk rr : Bool)
    (srv : XScreen) : List Act × Option Lock :=
  if dpyNull = true ∨ screen < 0 then ([], none)
  else if mallocOk = false then ([], none)
  else
    let lock : Lock :=
      { screen := screen, root := srv.root, win := srv.win, pmap := srv.pmap,
        colors := (List.range NUMCOLS).map srv.pixel }
    let setup := (List.range NUMCOLS).map (Act.XAllocNamedColor screen)
      ++ [Act.XCreateWindow lock.root, Act.XCreateBitmapFromData lock.win,
          Act.XCreatePixmapCursor lock.pmap, Act.XDefineCursor lock.win]
    let g := grabLoop rr lock srv.ptgrab srv.kbgrab 6 (-1) (-1) 0 0
    if g.locked then (setup ++ g.trace, some lock)
    else
      (setup ++ g.trace
        ++ (if g.kbgrab ≠ GrabSuccess then [Act.warnKeyboard screen] else [])
        ++ (if g.ptgrab ≠ GrabSuccess then [Act.warnPointer screen] else [])
        ++ unlockscreen .pam false (some lock), none)

/-! ## `main` -/

/-- How `main` ends: `return code`, `die`, a fault, the forked child (which
leaves through `execvp` or `die`), or still waiting inside
`pam_authenticate`. -/
inductive MainExit
  | exit (code : Int)
  | died
  | fault
  | child
  | waiting
  deriving DecidableEq, Repr

/-- The locking loop `for (screen = 0; screen < nscreens; ++screen)
locks[screen] = lockscreen(dpy, screen)`, from `screen` on with `n` screens
left; `lockscreenOf` is the call `lockscreen(dpy, screen)` of the variant. -/
def lockLoop (lockscreenOf : Nat → List Act × Option Lock) :
    Nat → Nat → List Act × List (Option Lock)
  | 0, _ => ([], [])
  | n + 1, screen =>
    let r := lockscreenOf screen
    let rest := lockLoop lockscreenOf n (screen + 1)
    (r.1 ++ rest.1, r.2 :: rest.2)

/-- The counter `nlocks` after the locking loop. -/
def countLocks : List (Option Lock) → Nat
  | [] => 0
  | none :: rest => countLocks rest
  | some _ :: rest => countLocks rest + 1

/-- How the loop `for (;;) { pamret = pam_authenticate(...); ... }` ends. -/
inductive AuthExit
  | success
  | waiting
  | fault
  deriving DecidableEq, Repr

/-- The authentication loop of `main`; the list holds the values that the
successive `pam_authenticate` calls return. -/
def authLoop (locks : List (Option Lock)) : List Int → List Act × AuthExit
  | [] => ([], .waiting)
  | pamret :: more =>
    if pamret = PAM_SUCCESS then ([Act.pam_authenticate pamret], .success)
    else
      match blank locks .EMPTY with
      | (t, .fault) => (Act.pam_authenticate pamret :: t, .fault)
      | (t, .ok) =>
        let r := authLoop locks more
        (Act.pam_authenticate pamret :: t ++ Act.XBell 100 :: r.1, r.2)

/-- The loop `for (screen = 0; screen < nscreens; ++screen)
unlockscreen(dpy, locks[screen])`. -/
def unlockLoop (v : Variant) : List (Option Lock) → List Act
  | [] => []
  | l :: rest => unlockscreen v false l ++ unlockLoop v rest

/-- Function `main` from `nscreens = ScreenCount(dpy)` on, that is, once the
option handling, `dontkillme`, the `getpwuid` check, `XOpenDisplay` and the
allocation of `locks` have succeeded.  `forkRes` is the value of `fork()`
(taken only by `slock-pam.c`, when `argc >= 2`); `mallocOk` and `pamStartOk`
say whether `malloc(PASSLEN)` and `pam_start` succeed. -/
def main (v : Variant) (nscreens : Nat)
    (lockscreenOf : Nat → List Act × Option Lock) (argc : Nat) (forkRes : Int)
    (mallocOk pamStartOk : Bool) (auth : List Int) : List Act × MainExit :=
  let ls := lockLoop lockscreenOf nscreens 0
  let locks := ls.2
  let t0 := ls.1 ++ [Act.XSync]
  if countLocks locks = 0 then (t0 ++ [Act.freeLocks, Act.XCloseDisplay], .exit 1)
  else
    let spawn := decide (v = .pam) && decide (2 ≤ argc)
    if spawn = true ∧ forkRes = -1 then (t0 ++ [Act.fork], .died)
    else if spawn = true ∧ forkRes = 0 then (t0 ++ [Act.fork], .child)
    else
      let t1 := t0 ++ (if spawn then [Act.fork] else [])
      if mallocOk = false then (t1, .died)
      else if pamStartOk = false then (t1 ++ [Act.pam_start], .died)
      else
        match authLoop locks auth with
        | (t, .waiting) => (t1 ++ Act.pam_start :: t, .waiting)
        | (t, .fault) => (t1 ++ Act.pam_start :: t, .fault)
        | (t, .success) =>
          (t1 ++ Act.pam_start :: t ++ Act.pam_end :: unlockLoop v locks
            ++ [Act.freeLocks, Act.freePasswd, Act.XCloseDisplay], .exit 0)

/-! ## Specification-side definitions and concrete inputs -/

/-- The colours of the `blank` calls in a trace, in order. -/
def blankCalls : List Act → List Color
  | [] => []
  | Act.blankCall c :: t => c :: blankCalls t
  | _ :: t => blankCalls t

/-- Number of `XBell(dpy, 100)` calls in a trace. -/
def bellCount (t : List Act) : Nat := t.count (Act.XBell 100)

/-- The passphrase length after an event that is a processed key press (not
of an ignored class, handled by the switch without leaving the loop);
`none` for every other event. -/
def lenAfterKey (v : Variant) (s : PwState) : XEvent → Option Nat
  | .KeyPress ksym text =>
    if ignored (normalize ksym) then none
    else
      match keySwitch v s (normalize ksym) text with
      | .next s1 => some s1.len
      | _ => none
  | _ => none

/-- The paints section 4.4 of the specification prescribes for one event:
`INPUT` on a 0 to nonzero change of the length, `EMPTY` on a nonzero to 0
change, nothing otherwise. -/
def prescribedPaints (before : Nat) : Option Nat → List Color
  | none => []
  | some after =>
    if before = 0 ∧ after ≠ 0 then [.INPUT]
    else if before ≠ 0 ∧ after = 0 then [.EMPTY]
    else []

/-- A lock record of screen 0. -/
def exLock0 : Lock := { screen := 0, root := 1, win := 2, pmap := 3, colors := [10, 11, 12] }

/-- A screen whose grabs are granted at once. -/
def exScreenFree : XScreen :=
  { root := 1, pixel := fun i => 10 + i, win := 2, pmap := 3,
    ptgrab := fun _ => GrabSuccess, kbgrab := fun _ => GrabSuccess }

/-- A screen whose pointer stays grabbed by another client. -/
def exScreenBusy : XScreen :=
  { root := 21, pixel := fun i => 30 + i, win := 22, pmap := 23,
    ptgrab := fun _ => AlreadyGrabbed, kbgrab := fun _ => GrabSuccess }

/-- Two screens: screen 0 locks, the pointer grab on screen 1 never succeeds. -/
def exLockscreen (screen : Nat) : List Act × Option Lock :=
  if screen = 0 then lockscreen false 0 true false exScreenFree
  else lockscreen false screen true false exScreenBusy

/-- A zero-filled buffer of `PASSLEN` bytes. -/
def exZeros : List Nat := List.replicate 256 0

/-- A buffer of `PASSLEN` bytes as `malloc` may return it (every byte 0xaa). -/
def exFresh : List Nat := List.replicate 256 170

/-- Key `a`. -/
def keyA : XEvent := .KeyPress 0x61 [0x61]
/-- Key `b`. -/
def keyB : XEvent := .KeyPress 0x62 [0x62]
/-- Key `Escape`. -/
def keyEscape : XEvent := .KeyPress XK_Escape [27]
/-- Key `BackSpace`. -/
def keyBackSpace : XEvent := .KeyPress XK_BackSpace [8]
/-- Key `Return`. -/
def keyReturn : XEvent := .KeyPress XK_Return [13]
/-- Key `F1`, of an ignored class. -/
def keyF1 : XEvent := .KeyPress 0xffbe []

/-- Loop-head invariant of `readpw` for a caller's buffer of `n` bytes: the
length is below `PASSLEN`, `llen` equals `len`, the buffer keeps its size. -/
def PwInv (n : Nat) (s : PwState) : Prop :=
  s.len < PASSLEN ∧ s.llen = s.len ∧ s.mem.length = n

/-- The grab whose successive request results are `g` has been granted in one
of the first `r` rounds (the `j`-th request of a grab is made in round
`j + 1`, as long as the grab has not been granted). -/
def grantedWithin (g : Nat → Int) (r : Nat) : Prop :=
  ∃ i, i < r ∧ g i = GrabSuccess

/-- A grab status that lets the loop go on: `GrabSuccess` or `AlreadyGrabbed`. -/
def tolerated (x : Int) : Prop := x = GrabSuccess ∨ x = AlreadyGrabbed

/-- In round `q + 1` every grab that is requested (not granted in an earlier
round) returns a tolerated status. -/
def roundTolerated (pt kb : Nat → Int) (q : Nat) : Prop :=
  (¬ grantedWithin pt q → tolerated (pt q)) ∧ (¬ grantedWithin kb q → tolerated (kb q))

/-- The condition of section 4.3 for a screen to lock: there is a round
`r <= 6` by which both grabs have been granted, and in every round before `r`
each requested grab returned `GrabSuccess` or `AlreadyGrabbed`. -/
def lockCondition (pt kb : Nat → Int) : Prop :=
  ∃ r, r < 7 ∧ (0 < r ∧ grantedWithin pt r ∧ grantedWithin kb r
    ∧ ∀ q, q < r - 1 → roundTolerated pt kb q)

instance (g : Nat → Int) (r : Nat) : Decidable (grantedWithin g r) := by
  unfold grantedWithin
  infer_instance

instance (x : Int) : Decidable (tolerated x) := by
  unfold tolerated
  infer_instance

instance (pt kb : Nat → Int) (q : Nat) : Decidable (roundTolerated pt kb q) := by
  unfold roundTolerated
  infer_instance

instance (pt kb : Nat → Int) : Decidable (lockCondition pt kb) := by
  unfold lockCondition
  infer_instance

/-- The record `lockscreen` builds for a screen. -/
def lockOf (screen : Int) (srv : XScreen) : Lock :=
  { screen := screen, root := srv.root, win := srv.win, pmap := srv.pmap,
    colors := (List.range NUMCOLS).map srv.pixel }

/-- The calls the grab loop of `lockscreen` can make while it has not locked
the screen: grab requests and the sleep between rounds. -/
def isRetryAct : Act → Bool
  | .XGrabPointer _ => true
  | .XGrabKeyboard _ => true
  | .nanosleep => true
  | _ => false

/-- The calls `lockscreen` makes before the grab loop. -/
def isSetupAct : Act → Bool
  | .XAllocNamedColor _ _ => true
  | .XCreateWindow _ => true
  | .XCreateBitmapFromData _ => true
  | .XCreatePixmapCursor _ => true
  | .XDefineCursor _ => true
  | _ => false

/-- The two diagnostics `lockscreen` prints on failure. -/
def isWarnAct : Act → Bool
  | .warnKeyboard _ => true
  | .warnPointer _ => true
  | _ => false

/-- The same two-screen outcome for `slock.c`, whose `lockscreen` also returns
NULL when a grab cannot be obtained (the calls made inside it are left out). -/
def exLockscreenPlain (screen : Nat) : List Act × Option Lock :=
  if screen = 0 then ([], some exLock0) else ([], none)

/-- A single screen that locks. -/
def exLockscreenOne (_screen : Nat) : List Act × Option Lock :=
  lockscreen false 0 true false exScreenFree

/-- PAM return code `PAM_AUTH_ERR`. -/
def PAM_AUTH_ERR : Int := 7

/-- The calls `unlockscreen` can make. -/
def isUnlockAct : Act → Bool
  | .XUngrabPointer => true
  | .XUngrabKeyboard => true
  | .XFreeColors _ _ _ => true
  | .XFreePixmap _ => true
  | .XDestroyWindow _ => true
  | .freeLock _ => true
  | _ => false

/-- One step of the reference fold of the specification over a key (keysym
and text): `Escape` empties the passphrase; `BackSpace` drops the last byte
if there is one; a key of an ignored class changes nothing; any other key
whose text is non-empty, whose first byte is not a control character and for
which `len + num < PASSLEN` appends its text; otherwise nothing changes. -/
def refKey (acc : List Nat) (key : Nat × List Nat) : List Nat :=
  if normalize key.1 = XK_Escape then []
  else if normalize key.1 = XK_BackSpace then acc.dropLast
  else if ignored (normalize key.1) = true then acc
  else if key.2 ≠ [] ∧ iscntrl (key.2.headD 0) = false
      ∧ acc.length + key.2.length < PASSLEN then acc ++ key.2
  else acc

/-- The reference fold: the passphrase a sequence of keys (none of them
`Return`) produces, starting empty. -/
def refFold (keys : List (Nat × List Nat)) : List Nat :=
  keys.foldl refKey []

/-- Loop-head relation between the state of `readpw` and the passphrase `acc`
of the reference fold: the stores still go to the caller's buffer of
`PASSLEN` bytes, whose first `len` bytes are `acc`. -/
def PwHolds (acc : List Nat) (s : PwState) : Prop :=
  s.passwd = .caller ∧ s.len = acc.length ∧ s.mem.take s.len = acc
    ∧ s.len < PASSLEN ∧ s.llen = s.len ∧ s.mem.length = PASSLEN

/-! ## Theorems -/

set_option maxRecDepth 100000

/-! ### Basic facts about stores -/

theorem store_some {p : Ptr} {mem m : List Nat} {i b : Nat}
    (h : store p mem i b = some m) :
    p = .caller ∧ i < mem.length ∧ m = mem.set i b := by
  unfold store at h
  cases p with
  | null => simp at h
  | caller =>
    by_cases hi : i < mem.length
    · simp [hi] at h
      exact ⟨rfl, hi, h.symm⟩
    · simp [hi] at h

theorem store_length {p : Ptr} {mem m : List Nat} {i b : Nat}
    (h : store p mem i b = some m) : m.length = mem.length := by
  obtain ⟨_, _, hm⟩ := store_some h
  simp [hm]

theorem memcpy_length {p : Ptr} {src : List Nat} :
    ∀ {mem m : List Nat} {off : Nat}, memcpy p mem off src = some m → m.length = mem.length := by
  induction src with
  | nil =>
    intro mem m off h
    simp [memcpy] at h
    simp [h]
  | cons b bs ih =>
    intro mem m off h
    unfold memcpy at h
    cases hs : store p mem off b with
    | none => simp [hs] at h
    | some m1 =>
      simp [hs] at h
      rw [ih h, store_length hs]

/-! ### Invariants of `readpw` -/

theorem keySwitch_next {v : Variant} {s s1 : PwState} {k : Nat} {text : List Nat}
    (hl : s.len < PASSLEN) (h : keySwitch v s k text = .next s1) :
    s1.len < PASSLEN ∧ s1.mem.length = s.mem.length ∧ s1.llen = s.llen
      ∧ (s.len < s1.len → s1.mem.get? s1.len = some 0) := by
  unfold keySwitch at h
  split_ifs at h with h1 h2 h3 h4 h5
  · split at h <;> cases h
  · cases h
    simp [PASSLEN]
  · cases v with
    | pam =>
      simp only at h
      split at h
      · cases h
      · rename_i m hs
        cases h
        refine ⟨?_, by simp [store_length hs], rfl, ?_⟩
        · show s.len - 1 < PASSLEN
          omega
        · intro hlt
          exfalso
          have : s.len < s.len - 1 := hlt
          omega
    | plain =>
      simp only at h
      cases h
      refine ⟨?_, rfl, rfl, ?_⟩
      · show s.len - 1 < PASSLEN
        omega
      · intro hlt
        exfalso
        have : s.len < s.len - 1 := hlt
        omega
  · cases h
    exact ⟨hl, rfl, rfl, fun hlt => absurd hlt (lt_irrefl _)⟩
  · split at h
    · cases h
    · rename_i m hc
      split at h
      · cases h
      · rename_i m2 hs
        cases h
        obtain ⟨_, hi, hm2⟩ := store_some hs
        refine ⟨h5.2.2, by simp [store_length hs, memcpy_length hc], rfl, ?_⟩
        intro _
        show m2.get? ((s.len + text.length) % 2 ^ 32) = some 0
        rw [hm2, List.get?_eq_getElem?, List.getElem?_set_self hi]
  · cases h
    exact ⟨hl, rfl, rfl, fun hlt => absurd hlt (lt_irrefl _)⟩

theorem keySwitch_returned {v : Variant} {s s1 : PwState} {k : Nat} {text : List Nat}
    (h : keySwitch v s k text = .returned s1) :
    s1.len = s.len ∧ s1.mem.length = s.mem.length ∧ s1.mem.get? s1.len = some 0 := by
  unfold keySwitch at h
  split_ifs at h with h1 h2 h3 h4 h5
  · split at h
    · cases h
    · rename_i m hs
      cases h
      obtain ⟨_, hi, hm⟩ := store_some hs
      simp [hm, hi]
  · cases v with
    | pam =>
      simp only at h
      split at h <;> cases h
    | plain =>
      simp only at h
      cases h
  · split at h
    · cases h
    · split at h <;> cases h

theorem repaint_next {locks : List (Option Lock)} {s s1 : PwState}
    (h : (repaint locks s).2 = .next s1) : s1 = { s with llen := s.len } := by
  unfold repaint at h
  split_ifs at h with h1 h2
  · split at h
    · simp at h
      exact h.symm
    · simp at h
  · split at h
    · simp at h
      exact h.symm
    · simp at h
  · simp at h
    exact h.symm

theorem repaint_not_returned {locks : List (Option Lock)} {s s1 : PwState} :
    (repaint locks s).2 ≠ .returned s1 := by
  unfold repaint
  split_ifs with h1 h2
  · split <;> simp
  · split <;> simp
  · simp

theorem readpwStep_next {v : Variant} {rr : Bool} {locks : List (Option Lock)}
    {n : Nat} {s s1 : PwState} {ev : XEvent} (hi : PwInv n s)
    (h : (readpwStep v rr locks s ev).2 = .next s1) : PwInv n s1 := by
  unfold readpwStep at h
  cases ev with
  | KeyPress ksym text =>
    simp only at h
    split_ifs at h with hg
    · simp at h
      exact h ▸ hi
    · split at h
      · simp at h
      · simp at h
      · rename_i s2 hk
        obtain ⟨h1, h2, h3, _⟩ := keySwitch_next hi.1 hk
        have := repaint_next h
        subst this
        exact ⟨h1, rfl, h2.trans hi.2.2⟩
  | RRScreenChangeNotify window width height =>
    simp only at h
    split_ifs at h
    · split at h
      · simp at h
        exact h ▸ hi
      · simp at h
    · split at h
      · simp at h
        exact h ▸ hi
      · simp at h
  | other =>
    simp only at h
    split at h
    · simp at h
      exact h ▸ hi
    · simp at h

theorem readpwStep_returned {v : Variant} {rr : Bool} {locks : List (Option Lock)}
    {n : Nat} {s s1 : PwState} {ev : XEvent} (hi : PwInv n s)
    (h : (readpwStep v rr locks s ev).2 = .returned s1) :
    s1.len < PASSLEN ∧ s1.mem.length = n ∧ s1.mem.get? s1.len = some 0 := by
  unfold readpwStep at h
  cases ev with
  | KeyPress ksym text =>
    simp only at h
    split_ifs at h with hg
    · split at h
      · rename_i s2 hk
        simp at h
        subst h
        obtain ⟨h1, h2, h3⟩ := keySwitch_returned hk
        exact ⟨h1 ▸ hi.1, h2.trans hi.2.2, h3⟩
      · simp at h
      · exact absurd h repaint_not_returned
  | RRScreenChangeNotify window width height =>
    simp only at h
    split_ifs at h
    · split at h <;> simp at h
    · split at h <;> simp at h
  | other =>
    simp only at h
    split at h <;> simp at h

theorem readpwLoop_waiting {v : Variant} {rr : Bool} {locks : List (Option Lock)}
    {n : Nat} {evs : List XEvent} :
    ∀ {s s1 : PwState}, PwInv n s → (readpwLoop v rr locks s evs).2 = .waiting s1 →
      PwInv n s1 := by
  induction evs with
  | nil =>
    intro s s1 hi h
    simp [readpwLoop] at h
    exact h ▸ hi
  | cons ev evs ih =>
    intro s s1 hi h
    unfold readpwLoop at h
    split at h
    · simp at h
    · simp at h
    · rename_i t s2 hs
      have h2 : (readpwStep v rr locks s ev).2 = .next s2 := by rw [hs]
      exact ih (readpwStep_next hi h2) h

theorem readpwLoop_returned {v : Variant} {rr : Bool} {locks : List (Option Lock)}
    {n : Nat} {evs : List XEvent} :
    ∀ {s s1 : PwState} {rest : List XEvent}, PwInv n s →
      (readpwLoop v rr locks s evs).2 = .returned s1 rest →
      s1.len < PASSLEN ∧ s1.mem.length = n ∧ s1.mem.get? s1.len = some 0 := by
  induction evs with
  | nil =>
    intro s s1 rest hi h
    simp [readpwLoop] at h
  | cons ev evs ih =>
    intro s s1 rest hi h
    unfold readpwLoop at h
    split at h
    · rename_i t s2 hs
      simp at h
      have h2 : (readpwStep v rr locks s ev).2 = .returned s2 := by rw [hs]
      have := readpwStep_returned hi h2
      rw [← h.1]
      exact this
    · simp at h
    · rename_i t s2 hs
      have h2 : (readpwStep v rr locks s ev).2 = .next s2 := by rw [hs]
      exact ih (readpwStep_next hi h2) h

theorem readpw_entry_inv (mem : List Nat) :
    PwInv mem.length { passwd := .caller, mem := mem, len := 0, llen := 0 } :=
  ⟨by simp [PASSLEN], rfl, rfl⟩

/-! ### C2: length bound and terminator -/

theorem readpwStep_grow {v : Variant} {rr : Bool} {locks : List (Option Lock)}
    {n : Nat} {s s1 : PwState} {ev : XEvent} (hi : PwInv n s)
    (h : (readpwStep v rr locks s ev).2 = .next s1) (hg : s.len < s1.len) :
    s1.mem.get? s1.len = some 0 := by
  unfold readpwStep at h
  cases ev with
  | KeyPress ksym text =>
    simp only at h
    split_ifs at h with hign
    · simp at h
      subst h
      exact absurd hg (lt_irrefl _)
    · split at h
      · simp at h
      · simp at h
      · rename_i s2 hk
        obtain ⟨_, _, _, h4⟩ := keySwitch_next hi.1 hk
        have := repaint_next h
        subst this
        exact h4 hg
  | RRScreenChangeNotify window width height =>
    simp only at h
    split_ifs at h
    · split at h
      · simp at h
        subst h
        exact absurd hg (lt_irrefl _)
      · simp at h
    · split at h
      · simp at h
        subst h
        exact absurd hg (lt_irrefl _)
      · simp at h
  | other =>
    simp only at h
    split at h
    · simp at h
      subst h
      exact absurd hg (lt_irrefl _)
    · simp at h

/-- C2 (amended): in both variants, for a caller's buffer of `PASSLEN` bytes
and every sequence of events, the length stays below `PASSLEN` after each
event; whenever an event makes the length grow (text was appended) the byte
at index `len` is zero afterwards; and when `readpw` returns, the byte at
index `len` is zero. -/
theorem readpw_length_bound (v : Variant) (rr : Bool) (locks : List (Option Lock))
    (mem : List Nat) (evs : List XEvent) (hm : mem.length = PASSLEN) :
    (∀ s, (readpw v rr locks mem evs).2 = .waiting s →
        s.len < PASSLEN ∧ s.mem.length = PASSLEN ∧
        ∀ ev s1, (readpwStep v rr locks s ev).2 = .next s1 → s.len < s1.len →
          s1.mem.get? s1.len = some 0)
    ∧ (∀ s rest, (readpw v rr locks mem evs).2 = .returned s rest →
        s.len < PASSLEN ∧ s.mem.length = PASSLEN ∧ s.mem.get? s.len = some 0) := by
  constructor
  · intro s h
    have hi := readpwLoop_waiting (readpw_entry_inv mem) h
    exact ⟨hi.1, hi.2.2.trans hm, fun ev s1 h1 hg => readpwStep_grow hi h1 hg⟩
  · intro s rest h
    have hr := readpwLoop_returned (readpw_entry_inv mem) h
    exact ⟨hr.1, hr.2.1.trans hm, hr.2.2⟩

/-- Witness of C2 (amended): the theorem applied to `slock-pam.c`, one locked
screen, a zero-filled buffer of `PASSLEN` bytes and the keys `a`, `b`. -/
theorem readpw_length_bound_witness :
    exZeros.length = PASSLEN ∧
    ((∀ s, (readpw .pam false [some exLock0] exZeros [keyA, keyB]).2 = .waiting s →
        s.len < PASSLEN ∧ s.mem.length = PASSLEN ∧
        ∀ ev s1, (readpwStep .pam false [some exLock0] s ev).2 = .next s1 → s.len < s1.len →
          s1.mem.get? s1.len = some 0)
    ∧ (∀ s rest, (readpw .pam false [some exLock0] exZeros [keyA, keyB]).2 = .returned s rest →
        s.len < PASSLEN ∧ s.mem.length = PASSLEN ∧ s.mem.get? s.len = some 0)) :=
  ⟨by decide, readpw_length_bound .pam false [some exLock0] exZeros [keyA, keyB] (by decide)⟩

/-- C2 fails as stated: after the keys `a`, `b`, `BackSpace` the length is 1
and the byte at index 1 is still `b` (98), in both variants; and after an
ignored key (`F1`) as first event, with nothing stored yet, the byte at index 0
is whatever `malloc` left there. -/
theorem readpw_terminator_counterexample :
    (∃ s, (readpw .pam false [some exLock0] exZeros [keyA, keyB, keyBackSpace]).2 = .waiting s
        ∧ s.len = 1 ∧ s.mem.get? s.len = some 98)
    ∧ (∃ s, (readpw .plain false [some exLock0] exZeros [keyA, keyB, keyBackSpace]).2 = .waiting s
        ∧ s.len = 1 ∧ s.mem.get? s.len = some 98)
    ∧ (∃ s, (readpw .plain false [some exLock0] exFresh [keyF1]).2 = .waiting s
        ∧ s.len = 0 ∧ s.mem.get? s.len = some 170) :=
  ⟨⟨_, rfl, rfl, rfl⟩, ⟨_, rfl, rfl, rfl⟩, ⟨_, rfl, rfl, rfl⟩⟩

/-! ### C6: repaints -/

theorem blankCalls_blankLoop (c : Color) (locks : List (Option Lock)) :
    blankCalls (blankLoop c locks).1 = [] := by
  induction locks with
  | nil => rfl
  | cons l rest ih =>
    cases l with
    | none => rfl
    | some l => simpa [blankLoop, blankCalls] using ih

theorem blankCalls_blank (c : Color) (locks : List (Option Lock)) :
    blankCalls (blank locks c).1 = [c] := by
  simp [blank, blankCalls, blankCalls_blankLoop]

theorem blankCalls_resizeLoop (w x y : Nat) (locks : List (Option Lock)) :
    blankCalls (resizeLoop w x y locks).1 = [] := by
  induction locks with
  | nil => rfl
  | cons l rest ih =>
    cases l with
    | none => rfl
    | some l =>
      unfold resizeLoop
      by_cases hw : l.win = w
      · simpa [hw, blankCalls] using ih
      · simpa [hw] using ih

theorem blankCalls_raiseLoop (locks : List (Option Lock)) :
    blankCalls (raiseLoop locks).1 = [] := by
  induction locks with
  | nil => rfl
  | cons l rest ih =>
    cases l with
    | none => rfl
    | some l => simpa [raiseLoop, blankCalls] using ih

theorem blankCalls_repaint (locks : List (Option Lock)) (s : PwState) :
    blankCalls (repaint locks s).1 = prescribedPaints s.llen (some s.len) := by
  unfold repaint
  simp only [prescribedPaints]
  split_ifs with h1 h2
  · have := blankCalls_blank .INPUT locks
    split <;> simp_all
  · have := blankCalls_blank .EMPTY locks
    split <;> simp_all
  · rfl

/-- C6: in both variants, at every point the event loop can reach, the
`blank` calls issued while one event is processed are exactly those the
specification prescribes: one `blank(INPUT)` when a processed key press takes
the length from 0 to nonzero, one `blank(EMPTY)` when it takes it from nonzero
to 0, and none for any other event (ignored keys, `Return`, resize
notifications, other events). -/
theorem readpw_paints (v : Variant) (rr : Bool) (locks : List (Option Lock))
    (mem : List Nat) (evs : List XEvent) (s : PwState) (ev : XEvent)
    (h : (readpw v rr locks mem evs).2 = .waiting s) :
    blankCalls (readpwStep v rr locks s ev).1
      = prescribedPaints s.len (lenAfterKey v s ev) := by
  have hi := readpwLoop_waiting (readpw_entry_inv mem) h
  unfold readpwStep lenAfterKey
  cases ev with
  | KeyPress ksym text =>
    simp only
    split_ifs with hign
    · rfl
    · cases hk : keySwitch v s (normalize ksym) text with
      | returned s1 => rfl
      | fault => rfl
      | next s1 =>
        simp only
        rw [blankCalls_repaint, (keySwitch_next hi.1 hk).2.2.1, hi.2.1]
  | RRScreenChangeNotify window width height =>
    simp only
    split_ifs
    · have := blankCalls_resizeLoop window width height locks
      split <;> simp_all [prescribedPaints]
    · have := blankCalls_raiseLoop locks
      split <;> simp_all [prescribedPaints]
  | other =>
    simp only
    have := blankCalls_raiseLoop locks
    split <;> simp_all [prescribedPaints]

/-- Witness of C6: the theorem applied in `slock-pam.c` to the state reached
after the keys `a`, `Escape`, with the ignored key `F1` as next event. -/
theorem readpw_paints_witness :
    (readpw .pam false [some exLock0] exZeros [keyA, keyEscape]).2
        = .waiting { passwd := .null, mem := exZeros.set 0 97, len := 0, llen := 0 }
    ∧ blankCalls (readpwStep .pam false [some exLock0]
        { passwd := .null, mem := exZeros.set 0 97, len := 0, llen := 0 } keyF1).1
      = prescribedPaints 0 (lenAfterKey .pam
        { passwd := .null, mem := exZeros.set 0 97, len := 0, llen := 0 } keyF1) :=
  ⟨rfl, readpw_paints .pam false [some exLock0] exZeros [keyA, keyEscape]
    { passwd := .null, mem := exZeros.set 0 97, len := 0, llen := 0 } keyF1 rfl⟩

/-! ### C3, C4, C5, C7, C8, C9: the code at concrete inputs -/

/-- C3 (code at the failing input): `Escape` sets `len` to 0 but stores
nothing in the caller's buffer, in either variant; `slock-pam.c` clears the
pointer variable instead.  After the keys `a`, `Escape` the byte at index 0 is
still `a` (97). -/
theorem escape_keeps_buffer_bytes (v : Variant) (s : PwState) (text : List Nat) :
    keySwitch v s XK_Escape text
        = .next { s with len := 0, passwd := bzeroPtr v s.passwd }
    ∧ (∃ s1, (readpw .pam false [some exLock0] exZeros [keyA, keyEscape]).2 = .waiting s1
        ∧ s1.len = 0 ∧ s1.passwd = .null ∧ s1.mem.get? 0 = some 97)
    ∧ (∃ s1, (readpw .plain false [some exLock0] exZeros [keyA, keyEscape]).2 = .waiting s1
        ∧ s1.len = 0 ∧ s1.passwd = .caller ∧ s1.mem.get? 0 = some 97) :=
  ⟨rfl, ⟨_, rfl, rfl, rfl, rfl⟩, ⟨_, rfl, rfl, rfl, rfl⟩⟩

/-- C4 (code at the failing input): in `slock-pam.c`, once `Escape` has been
handled the pointer variable is NULL, so the store of the next `Return` (and
of the next appended key) does not go to the caller's buffer: the run
faults. -/
theorem store_after_escape_faults (rr : Bool) (locks : List (Option Lock))
    (mem text1 text2 : List Nat) (evs : List XEvent) :
    readpw .pam rr locks mem
        (.KeyPress XK_Escape text1 :: .KeyPress XK_Return text2 :: evs) = ([], .fault)
    ∧ (readpw .pam false [some exLock0] exZeros [keyEscape, keyA]).2 = .fault :=
  ⟨rfl, rfl⟩

/-- C5 (code at the failing input): the keys `a`, `Escape`, `b`, `Return`
make `readpw` of `slock-pam.c` fault at `b` instead of returning, while
`readpw` of `slock.c` returns with `b` followed by NUL in the buffer. -/
theorem readpw_escape_then_key :
    (readpw .pam false [some exLock0] exZeros [keyA, keyEscape, keyB, keyReturn]).2 = .fault
    ∧ (readpw .pam false [some exLock0] exZeros [keyA, keyEscape, keyB]).2 = .fault
    ∧ (∃ s, (readpw .plain false [some exLock0] exZeros [keyA, keyEscape, keyB, keyReturn]).2
          = .returned s []
        ∧ s.len = 1 ∧ s.mem.take 2 = [98, 0]) :=
  ⟨rfl, rfl, ⟨_, rfl, rfl, rfl⟩⟩

theorem blankLoop_fault_iff (c : Color) (locks : List (Option Lock)) :
    (blankLoop c locks).2 = .fault ↔ none ∈ locks := by
  induction locks with
  | nil => simp [blankLoop]
  | cons l rest ih =>
    cases l with
    | none => simp [blankLoop]
    | some l => simpa [blankLoop] using ih

/-- C7 (code at the failing input): `blank` faults exactly when the lock array
holds a NULL entry.  With two screens of which screen 1 fails to lock, the
locking loop of `main` leaves a NULL entry in `locks`, and `blank`, for every
palette index, paints screen 0 and then dereferences that NULL entry. -/
theorem blank_reads_null_entry (c : Color) (locks : List (Option Lock)) :
    ((blank locks c).2 = .fault ↔ none ∈ locks)
    ∧ (lockLoop exLockscreen 2 0).2 = [some exLock0, none]
    ∧ blank (lockLoop exLockscreen 2 0).2 c
      = ([Act.blankCall c, Act.XSetWindowBackground 2 (exLock0.colors.getD c.idx 0),
          Act.XClearWindow 2], .fault) := by
  refine ⟨blankLoop_fault_iff c locks, ?_⟩
  cases c <;> exact ⟨rfl, rfl⟩

/-- C8 (amended): for a non-null display and record, `unlockscreen` of
`slock-pam.c` issues `XUngrabPointer`, `XUngrabKeyboard`, `XFreeColors` on the
`NUMCOLS` cells, `XFreePixmap`, `XDestroyWindow` and then frees the record;
`unlockscreen` of `slock.c` issues the same calls without `XUngrabKeyboard`;
with a null display or a null record both do nothing. -/
theorem unlockscreen_release_order (l : Lock) (v : Variant) (dpyNull : Bool)
    (lock : Option Lock) :
    unlockscreen .pam false (some l)
        = [Act.XUngrabPointer, Act.XUngrabKeyboard,
           Act.XFreeColors l.screen l.colors NUMCOLS, Act.XFreePixmap l.pmap,
           Act.XDestroyWindow l.win, Act.freeLock l]
    ∧ unlockscreen .plain false (some l)
        = [Act.XUngrabPointer,
           Act.XFreeColors l.screen l.colors NUMCOLS, Act.XFreePixmap l.pmap,
           Act.XDestroyWindow l.win, Act.freeLock l]
    ∧ unlockscreen v true lock = []
    ∧ unlockscreen v dpyNull none = [] := by
  refine ⟨rfl, rfl, ?_, ?_⟩
  · cases lock <;> rfl
  · cases dpyNull <;> rfl

/-- C8 fails as stated for `slock.c`: its `unlockscreen` never releases the
keyboard grab. -/
theorem unlockscreen_plain_keeps_keyboard_grab :
    ¬ (∀ v : Variant, unlockscreen v false (some exLock0)
        = [Act.XUngrabPointer, Act.XUngrabKeyboard,
           Act.XFreeColors exLock0.screen exLock0.colors NUMCOLS,
           Act.XFreePixmap exLock0.pmap, Act.XDestroyWindow exLock0.win,
           Act.freeLock exLock0])
    ∧ Act.XUngrabKeyboard ∉ unlockscreen .plain false (some exLock0) := by
  constructor
  · intro h
    exact absurd (h .plain) (by decide)
  · decide

/-- C9 (code at the failing input): with two or more prompts `pamconv` never
completes, whatever the prompt styles: at index 1 it reads `resp[1]`, which
lies outside the pointer variable PAM passed.  With the two echo-off prompts
of the example the run faults after the first `readpw`. -/
theorem pamconv_second_prompt_faults (v : Variant) (rr : Bool)
    (locks : List (Option Lock)) (callocOk mallocOk : Bool) (fresh : List Nat)
    (style0 style1 : Int) (styles : List Int) (evs : List XEvent)
    (ret : Int) (reply : List PamResponse) (rest : List XEvent) :
    (pamconv v rr locks callocOk mallocOk fresh (style0 :: style1 :: styles) evs).2
        ≠ .done ret reply rest
    ∧ (pamconv .pam false [some exLock0] true true exFresh
        [PAM_PROMPT_ECHO_OFF, PAM_PROMPT_ECHO_OFF] [keyA, keyReturn, keyB, keyReturn]).2
        = .fault := by
  refine ⟨?_, rfl⟩
  unfold pamconv
  generalize (if callocOk = true then
      List.replicate (style0 :: style1 :: styles).length
        ({ resp := none, resp_retcode := 0 } : PamResponse) else []) = r
  unfold pamconvLoop
  simp only [ne_eq, not_true_eq_false, if_false]
  cases r with
  | nil => simp
  | cons r0 rs =>
    simp only
    split_ifs with h1 h2
    · simp
    · split
      · simp
      · simp
      · simp [pamconvLoop]
    · simp [pamconvLoop]

/-! ### C10: the grab loop of `lockscreen` -/

theorem grantedWithin_succ (g : Nat → Int) (q : Nat) :
    grantedWithin g (q + 1) ↔ grantedWithin g q ∨ g q = GrabSuccess := by
  unfold grantedWithin
  constructor
  · rintro ⟨i, hi, hg⟩
    by_cases h : i = q
    · exact Or.inr (h ▸ hg)
    · exact Or.inl ⟨i, by omega, hg⟩
  · rintro (⟨i, hi, hg⟩ | hg)
    · exact ⟨i, by omega, hg⟩
    · exact ⟨q, by omega, hg⟩

theorem grantedWithin_mono {g : Nat → Int} {q r : Nat} (h : q ≤ r)
    (hg : grantedWithin g q) : grantedWithin g r := by
  obtain ⟨i, hi, e⟩ := hg
  exact ⟨i, by omega, e⟩

/-- One round for one grab: `x` is the status variable and `n` the number of
requests made before the round, `q` the number of rounds run so far. -/
theorem round_facts (g : Nat → Int) (q n : Nat) (x : Int)
    (h1 : x = GrabSuccess ↔ grantedWithin g q) (h2 : x ≠ GrabSuccess → n = q) :
    ((if decide (x ≠ GrabSuccess) = true then g n else x) = GrabSuccess
        ↔ grantedWithin g (q + 1))
    ∧ ((if decide (x ≠ GrabSuccess) = true then g n else x) ≠ GrabSuccess →
        (if decide (x ≠ GrabSuccess) = true then n + 1 else n) = q + 1)
    ∧ (tolerated (if decide (x ≠ GrabSuccess) = true then g n else x)
        ↔ (¬ grantedWithin g q → tolerated (g q))) := by
  by_cases hx : x = GrabSuccess
  · have hg : grantedWithin g q := h1.mp hx
    have e : (if decide (x ≠ GrabSuccess) = true then g n else x) = GrabSuccess := by
      simp [hx]
    have e2 : (if decide (x ≠ GrabSuccess) = true then n + 1 else n) = n := by
      simp [hx]
    rw [e, e2]
    refine ⟨⟨fun _ => grantedWithin_mono (Nat.le_succ q) hg, fun _ => rfl⟩,
      fun h => absurd rfl h, ?_⟩
    exact ⟨fun _ h => absurd hg h, fun _ => Or.inl rfl⟩
  · have hn : n = q := h2 hx
    have hg : ¬ grantedWithin g q := fun h => hx (h1.mpr h)
    subst hn
    have e : (if decide (x ≠ GrabSuccess) = true then g n else x) = g n := by
      simp [hx]
    have e2 : (if decide (x ≠ GrabSuccess) = true then n + 1 else n) = n + 1 := by
      simp [hx]
    rw [e, e2]
    refine ⟨?_, fun _ => rfl, ?_⟩
    · rw [grantedWithin_succ]
      exact ⟨Or.inr, fun h => h.resolve_left hg⟩
    · exact ⟨fun h _ => h, fun h => h hg⟩

theorem grabLoop_locked_iff (rr : Bool) (lock : Lock) (pt kb : Nat → Int) :
    ∀ (tries q : Nat) (ptgrab kbgrab : Int) (np nk : Nat),
      (ptgrab = GrabSuccess ↔ grantedWithin pt q) → (ptgrab ≠ GrabSuccess → np = q) →
      (kbgrab = GrabSuccess ↔ grantedWithin kb q) → (kbgrab ≠ GrabSuccess → nk = q) →
      ((grabLoop rr lock pt kb tries ptgrab kbgrab np nk).locked = true ↔
        ∃ r, q < r ∧ r ≤ q + tries ∧ grantedWithin pt r ∧ grantedWithin kb r
          ∧ ∀ q', q ≤ q' → q' < r - 1 → roundTolerated pt kb q') := by
  intro tries
  induction tries with
  | zero =>
    intro q ptgrab kbgrab np nk _ _ _ _
    simp only [grabLoop, Bool.false_eq_true, false_iff]
    rintro ⟨r, h1, h2, _⟩
    omega
  | succ tries ih =>
    intro q ptgrab kbgrab np nk hp1 hp2 hk1 hk2
    obtain ⟨p1, p2, p3⟩ := round_facts pt q np ptgrab hp1 hp2
    obtain ⟨k1, k2, k3⟩ := round_facts kb q nk kbgrab hk1 hk2
    unfold grabLoop
    simp only
    generalize (if decide (ptgrab ≠ GrabSuccess) = true then pt np else ptgrab) = x at p1 p2 p3 ⊢
    generalize (if decide (kbgrab ≠ GrabSuccess) = true then kb nk else kbgrab) = y at k1 k2 k3 ⊢
    generalize (if decide (ptgrab ≠ GrabSuccess) = true then np + 1 else np) = np1 at p2 ⊢
    generalize (if decide (kbgrab ≠ GrabSuccess) = true then nk + 1 else nk) = nk1 at k2 ⊢
    by_cases hboth : x = GrabSuccess ∧ y = GrabSuccess
    · -- both granted in this round
      rw [if_pos hboth]
      simp only [true_iff]
      refine ⟨q + 1, by omega, by omega, p1.mp hboth.1, k1.mp hboth.2, ?_⟩
      intro q' h1 h2
      omega
    by_cases hfatal : (x ≠ AlreadyGrabbed ∧ x ≠ GrabSuccess)
        ∨ (y ≠ AlreadyGrabbed ∧ y ≠ GrabSuccess)
    · -- a fatal status
      rw [if_neg hboth, if_pos hfatal]
      simp only [Bool.false_eq_true, false_iff]
      rintro ⟨r, hr1, hr2, hgp, hgk, hall⟩
      by_cases hr : r = q + 1
      · subst hr
        exact hboth ⟨p1.mpr hgp, k1.mpr hgk⟩
      · have hq := hall q (le_refl q) (by omega)
        have hx : tolerated x := p3.mpr hq.1
        have hy : tolerated y := k3.mpr hq.2
        unfold tolerated at hx hy
        rcases hfatal with hf | hf
        · rcases hx with hx | hx
          · exact hf.2 hx
          · exact hf.1 hx
        · rcases hy with hy | hy
          · exact hf.2 hy
          · exact hf.1 hy
    · -- another round
      have hx : tolerated x := by
        unfold tolerated
        by_contra hc
        push_neg at hc
        exact hfatal (Or.inl ⟨hc.2, hc.1⟩)
      have hy : tolerated y := by
        unfold tolerated
        by_contra hc
        push_neg at hc
        exact hfatal (Or.inr ⟨hc.2, hc.1⟩)
      have := ih (q + 1) x y np1 nk1 p1 p2 k1 k2
      rw [if_neg hboth, if_neg hfatal]
      simp only
      rw [this]
      constructor
      · rintro ⟨r, hr1, hr2, hgp, hgk, hall⟩
        refine ⟨r, by omega, by omega, hgp, hgk, ?_⟩
        intro q' h1 h2
        by_cases hq : q' = q
        · subst hq
          exact ⟨p3.mp hx, k3.mp hy⟩
        · exact hall q' (by omega) h2
      · rintro ⟨r, hr1, hr2, hgp, hgk, hall⟩
        have hr : r ≠ q + 1 := by
          intro hr
          subst hr
          exact hboth ⟨p1.mpr hgp, k1.mpr hgk⟩
        exact ⟨r, by omega, by omega, hgp, hgk, fun q' h1 h2 => hall q' (by omega) h2⟩

theorem grabLoop_pointer (rr : Bool) (lock : Lock) (pt kb : Nat → Int) :
    ∀ (tries : Nat) (ptgrab kbgrab : Int) (np nk : Nat),
      (grabLoop rr lock pt kb tries ptgrab kbgrab np nk).trace.count
          (Act.XGrabPointer lock.root) ≤ tries
      ∧ (ptgrab = GrabSuccess →
          (grabLoop rr lock pt kb tries ptgrab kbgrab np nk).trace.count
            (Act.XGrabPointer lock.root) = 0)
      ∧ (∀ j, np ≤ j →
          j + 1 < np + (grabLoop rr lock pt kb tries ptgrab kbgrab np nk).trace.count
            (Act.XGrabPointer lock.root) →
          pt j ≠ GrabSuccess) := by
  intro tries
  induction tries with
  | zero =>
    intro ptgrab kbgrab np nk
    simp only [grabLoop, List.count_nil, le_refl, implies_true, true_and]
    intro j h1 h2
    omega
  | succ tries ih =>
    intro ptgrab kbgrab np nk
    unfold grabLoop
    simp only
    by_cases hp : ptgrab = GrabSuccess
    · subst hp
      simp only [ne_eq, not_true_eq_false, decide_False, Bool.false_eq_true, if_false,
        List.nil_append]
      generalize (if decide (¬kbgrab = GrabSuccess) = true then kb nk else kbgrab) = y
      generalize (if decide (¬kbgrab = GrabSuccess) = true then nk + 1 else nk) = nk1
      have hr : List.count (Act.XGrabPointer lock.root)
          (if decide (¬kbgrab = GrabSuccess) = true then [Act.XGrabKeyboard lock.root] else [])
          = 0 := by
        split_ifs <;> simp
      have h0 := (ih GrabSuccess y np nk1).2.1 rfl
      split_ifs <;> simp [hr, h0] <;> omega
    · simp only [ne_eq, hp, not_false_eq_true, decide_True, if_true]
      generalize (if decide (¬kbgrab = GrabSuccess) = true then kb nk else kbgrab) = y
      generalize (if decide (¬kbgrab = GrabSuccess) = true then nk + 1 else nk) = nk1
      have hr : List.count (Act.XGrabPointer lock.root)
          (if decide (¬kbgrab = GrabSuccess) = true then [Act.XGrabKeyboard lock.root] else [])
          = 0 := by
        split_ifs <;> simp
      obtain ⟨i1, i2, i3⟩ := ih (pt np) y (np + 1) nk1
      split_ifs with h1 h2 h3
      all_goals simp only [List.count_append, List.count_cons, List.count_nil, hr, hp,
        beq_self_eq_true, if_true, if_false, false_implies, true_and]
      all_goals simp
      all_goals first
        | omega
        | skip
      all_goals
        refine ⟨by omega, fun j hj1 hj2 => ?_⟩
        by_cases hj : j = np
        · subst hj
          intro e
          have := i2 e
          omega
        · exact i3 j (by omega) (by omega)

theorem grabLoop_keyboard (rr : Bool) (lock : Lock) (pt kb : Nat → Int) :
    ∀ (tries : Nat) (ptgrab kbgrab : Int) (np nk : Nat),
      (grabLoop rr lock pt kb tries ptgrab kbgrab np nk).trace.count
          (Act.XGrabKeyboard lock.root) ≤ tries
      ∧ (kbgrab = GrabSuccess →
          (grabLoop rr lock pt kb tries ptgrab kbgrab np nk).trace.count
            (Act.XGrabKeyboard lock.root) = 0)
      ∧ (∀ j, nk ≤ j →
          j + 1 < nk + (grabLoop rr lock pt kb tries ptgrab kbgrab np nk).trace.count
            (Act.XGrabKeyboard lock.root) →
          kb j ≠ GrabSuccess) := by
  intro tries
  induction tries with
  | zero =>
    intro ptgrab kbgrab np nk
    simp only [grabLoop, List.count_nil, le_refl, implies_true, true_and]
    intro j h1 h2
    omega
  | succ tries ih =>
    intro ptgrab kbgrab np nk
    unfold grabLoop
    simp only
    by_cases hk : kbgrab = GrabSuccess
    · subst hk
      simp only [ne_eq, not_true_eq_false, decide_False, Bool.false_eq_true, if_false,
        List.append_nil]
      generalize (if decide (¬ptgrab = GrabSuccess) = true then pt np else ptgrab) = x
      generalize (if decide (¬ptgrab = GrabSuccess) = true then np + 1 else np) = np1
      have hr : List.count (Act.XGrabKeyboard lock.root)
          (if decide (¬ptgrab = GrabSuccess) = true then [Act.XGrabPointer lock.root] else [])
          = 0 := by
        split_ifs <;> simp
      have h0 := (ih x GrabSuccess np1 nk).2.1 rfl
      split_ifs <;> simp [hr, h0] <;> omega
    · simp only [ne_eq, hk, not_false_eq_true, decide_True, if_true]
      generalize (if decide (¬ptgrab = GrabSuccess) = true then pt np else ptgrab) = x
      generalize (if decide (¬ptgrab = GrabSuccess) = true then np + 1 else np) = np1
      have hr : List.count (Act.XGrabKeyboard lock.root)
          (if decide (¬ptgrab = GrabSuccess) = true then [Act.XGrabPointer lock.root] else [])
          = 0 := by
        split_ifs <;> simp
      obtain ⟨i1, i2, i3⟩ := ih x (kb nk) np1 (nk + 1)
      split_ifs with h1 h2 h3
      all_goals simp only [List.count_append, List.count_cons, List.count_nil, hr, hk,
        beq_self_eq_true, if_true, if_false, false_implies, true_and]
      all_goals simp
      all_goals first
        | omega
        | skip
      all_goals
        refine ⟨by omega, fun j hj1 hj2 => ?_⟩
        by_cases hj : j = nk
        · subst hj
          intro e
          have := i2 e
          omega
        · exact i3 j (by omega) (by omega)

theorem grabLoop_sleeps (rr : Bool) (lock : Lock) (pt kb : Nat → Int) :
    ∀ (tries : Nat) (ptgrab kbgrab : Int) (np nk : Nat),
      (grabLoop rr lock pt kb tries ptgrab kbgrab np nk).trace.count Act.nanosleep ≤ tries := by
  intro tries
  induction tries with
  | zero =>
    intro ptgrab kbgrab np nk
    simp [grabLoop]
  | succ tries ih =>
    intro ptgrab kbgrab np nk
    unfold grabLoop
    simp only
    generalize (if decide (ptgrab ≠ GrabSuccess) = true then pt np else ptgrab) = x
    generalize (if decide (kbgrab ≠ GrabSuccess) = true then kb nk else kbgrab) = y
    generalize (if decide (ptgrab ≠ GrabSuccess) = true then np + 1 else np) = np1
    generalize (if decide (kbgrab ≠ GrabSuccess) = true then nk + 1 else nk) = nk1
    have := ih x y np1 nk1
    split_ifs <;> simp <;> omega

theorem grabLoop_acts (rr : Bool) (lock : Lock) (pt kb : Nat → Int) :
    ∀ (tries : Nat) (ptgrab kbgrab : Int) (np nk : Nat),
      ((grabLoop rr lock pt kb tries ptgrab kbgrab np nk).locked = false →
        ∀ a ∈ (grabLoop rr lock pt kb tries ptgrab kbgrab np nk).trace, isRetryAct a = true)
      ∧ ((grabLoop rr lock pt kb tries ptgrab kbgrab np nk).locked = true →
        ∀ a ∈ (grabLoop rr lock pt kb tries ptgrab kbgrab np nk).trace,
          isRetryAct a = true ∨ a = Act.XMapRaised lock.win
            ∨ a = Act.XRRSelectInput lock.win ∨ a = Act.XSelectInput lock.root) := by
  intro tries
  induction tries with
  | zero =>
    intro ptgrab kbgrab np nk
    simp [grabLoop]
  | succ tries ih =>
    intro ptgrab kbgrab np nk
    unfold grabLoop
    simp only
    generalize (if decide (ptgrab ≠ GrabSuccess) = true then pt np else ptgrab) = x
    generalize (if decide (kbgrab ≠ GrabSuccess) = true then kb nk else kbgrab) = y
    generalize (if decide (ptgrab ≠ GrabSuccess) = true then np + 1 else np) = np1
    generalize (if decide (kbgrab ≠ GrabSuccess) = true then nk + 1 else nk) = nk1
    have hreq : ∀ a ∈ (if decide (ptgrab ≠ GrabSuccess) = true
          then [Act.XGrabPointer lock.root] else [])
        ++ (if decide (kbgrab ≠ GrabSuccess) = true then [Act.XGrabKeyboard lock.root] else []),
        isRetryAct a = true := by
      intro a ha
      rw [List.mem_append] at ha
      rcases ha with ha | ha <;> split_ifs at ha <;> simp at ha <;> subst ha <;> rfl
    generalize ((if decide (ptgrab ≠ GrabSuccess) = true
          then [Act.XGrabPointer lock.root] else [])
        ++ (if decide (kbgrab ≠ GrabSuccess) = true then [Act.XGrabKeyboard lock.root] else []))
      = reqs at hreq ⊢
    obtain ⟨i1, i2⟩ := ih x y np1 nk1
    by_cases hboth : x = GrabSuccess ∧ y = GrabSuccess
    · rw [if_pos hboth]
      refine ⟨by simp, fun _ a ha => ?_⟩
      simp only [List.mem_append, List.mem_singleton] at ha
      rcases ha with ((ha | ha) | ha) | ha
      · exact Or.inl (hreq a ha)
      · exact Or.inr (Or.inl ha)
      · split_ifs at ha
        · simp at ha
          exact Or.inr (Or.inr (Or.inl ha))
        · simp at ha
      · exact Or.inr (Or.inr (Or.inr ha))
    · rw [if_neg hboth]
      by_cases hfatal : (x ≠ AlreadyGrabbed ∧ x ≠ GrabSuccess)
          ∨ (y ≠ AlreadyGrabbed ∧ y ≠ GrabSuccess)
      · rw [if_pos hfatal]
        exact ⟨fun _ a ha => hreq a ha, by simp⟩
      · rw [if_neg hfatal]
        simp only [List.mem_append, List.mem_cons]
        constructor
        · intro hl a ha
          rcases ha with ha | ha | ha
          · exact hreq a ha
          · subst ha
            rfl
          · exact i1 hl a ha
        · intro hl a ha
          rcases ha with ha | ha | ha
          · exact Or.inl (hreq a ha)
          · subst ha
            exact Or.inl rfl
          · exact i2 hl a ha

theorem lockscreen_unfold (screen : Int) (rr : Bool) (srv : XScreen) (hs : 0 ≤ screen) :
    lockscreen false screen true rr srv
      = if (grabLoop rr (lockOf screen srv) srv.ptgrab srv.kbgrab 6 (-1) (-1) 0 0).locked = true
        then
          ([Act.XAllocNamedColor screen 0, Act.XAllocNamedColor screen 1,
            Act.XAllocNamedColor screen 2, Act.XCreateWindow srv.root,
            Act.XCreateBitmapFromData srv.win, Act.XCreatePixmapCursor srv.pmap,
            Act.XDefineCursor srv.win]
            ++ (grabLoop rr (lockOf screen srv) srv.ptgrab srv.kbgrab 6 (-1) (-1) 0 0).trace,
           some (lockOf screen srv))
        else
          ([Act.XAllocNamedColor screen 0, Act.XAllocNamedColor screen 1,
            Act.XAllocNamedColor screen 2, Act.XCreateWindow srv.root,
            Act.XCreateBitmapFromData srv.win, Act.XCreatePixmapCursor srv.pmap,
            Act.XDefineCursor srv.win]
            ++ (grabLoop rr (lockOf screen srv) srv.ptgrab srv.kbgrab 6 (-1) (-1) 0 0).trace
            ++ (if (grabLoop rr (lockOf screen srv) srv.ptgrab srv.kbgrab 6 (-1) (-1) 0 0).kbgrab
                  ≠ GrabSuccess then [Act.warnKeyboard screen] else [])
            ++ (if (grabLoop rr (lockOf screen srv) srv.ptgrab srv.kbgrab 6 (-1) (-1) 0 0).ptgrab
                  ≠ GrabSuccess then [Act.warnPointer screen] else [])
            ++ unlockscreen .pam false (some (lockOf screen srv)), none) := by
  unfold lockscreen
  have h : ¬ ((false = true) ∨ screen < 0) := by
    simp
    exact hs
  rw [if_neg h]
  rfl

theorem lockCondition_iff (pt kb : Nat → Int) :
    lockCondition pt kb ↔
      ∃ r, 0 < r ∧ r ≤ 0 + 6 ∧ grantedWithin pt r ∧ grantedWithin kb r
        ∧ ∀ q', 0 ≤ q' → q' < r - 1 → roundTolerated pt kb q' := by
  unfold lockCondition
  constructor
  · rintro ⟨r, h1, h2, h3, h4, h5⟩
    exact ⟨r, h2, by omega, h3, h4, fun q _ hq => h5 q hq⟩
  · rintro ⟨r, h1, h2, h3, h4, h5⟩
    exact ⟨r, by omega, h1, h3, h4, fun q hq => h5 q (Nat.zero_le q) hq⟩

theorem grabLoop_initial_iff (rr : Bool) (lock : Lock) (pt kb : Nat → Int) :
    (grabLoop rr lock pt kb 6 (-1) (-1) 0 0).locked = true ↔ lockCondition pt kb := by
  rw [lockCondition_iff]
  apply grabLoop_locked_iff
  · constructor
    · intro h
      exact absurd h (by decide)
    · rintro ⟨i, hi, _⟩
      omega
  · intro _
    rfl
  · constructor
    · intro h
      exact absurd h (by decide)
    · rintro ⟨i, hi, _⟩
      omega
  · intro _
    rfl

theorem unlockscreen_not_retry (l : Lock) :
    ∀ a ∈ unlockscreen .pam false (some l), isRetryAct a = false ∧ isSetupAct a = false
      ∧ isWarnAct a = false ∧ (∀ w, a ≠ Act.XMapRaised w) ∧ (∀ w, a ≠ Act.XRRSelectInput w)
      ∧ (∀ w, a ≠ Act.XSelectInput w) := by
  intro a ha
  simp only [unlockscreen, List.singleton_append, List.cons_append, List.nil_append,
    List.mem_cons, List.mem_singleton, List.not_mem_nil, or_false] at ha
  rcases ha with ha | ha | ha | ha | ha | ha <;> subst ha <;> simp [isRetryAct, isSetupAct, isWarnAct]

theorem setup_not_retry {a : Act} (h : isSetupAct a = true) : isRetryAct a = false := by
  cases a <;> simp [isSetupAct] at h <;> rfl

theorem warn_not_retry {a : Act} (h : isWarnAct a = true) : isRetryAct a = false := by
  cases a <;> simp [isWarnAct] at h <;> rfl

theorem count_retry_frame (a : Act) (ha : isRetryAct a = true) (su tr w u : List Act)
    (hsu : ∀ b ∈ su, isSetupAct b = true) (hw : ∀ b ∈ w, isWarnAct b = true)
    (hu : ∀ b ∈ u, isRetryAct b = false) :
    List.count a (su ++ tr ++ w ++ u) = List.count a tr := by
  have h1 : List.count a su = 0 := by
    rw [List.count_eq_zero]
    intro hm
    have := setup_not_retry (hsu a hm)
    rw [ha] at this
    exact absurd this (by decide)
  have h2 : List.count a w = 0 := by
    rw [List.count_eq_zero]
    intro hm
    have := warn_not_retry (hw a hm)
    rw [ha] at this
    exact absurd this (by decide)
  have h3 : List.count a u = 0 := by
    rw [List.count_eq_zero]
    intro hm
    have := hu a hm
    rw [ha] at this
    exact absurd this (by decide)
  simp [List.count_append, h1, h2, h3]

theorem lockscreen_setup_acts (screen : Int) (srv : XScreen) :
    ∀ b ∈ [Act.XAllocNamedColor screen 0, Act.XAllocNamedColor screen 1,
        Act.XAllocNamedColor screen 2, Act.XCreateWindow srv.root,
        Act.XCreateBitmapFromData srv.win, Act.XCreatePixmapCursor srv.pmap,
        Act.XDefineCursor srv.win], isSetupAct b = true := by
  intro b hb
  simp only [List.mem_cons, List.mem_singleton, List.not_mem_nil, or_false] at hb
  rcases hb with hb | hb | hb | hb | hb | hb | hb <;> subst hb <;> rfl

/-- C10: `lockscreen` of `slock-pam.c`, called with a display and a screen
number `>= 0` and with its allocation succeeding, returns the lock record if
and only if there is a round `r <= 6` by which both grabs have been granted
and in every earlier round each requested grab returned `GrabSuccess` or
`AlreadyGrabbed`.  The loop runs at most 6 rounds (at most 6 requests per grab,
at most 6 sleeps), and a grab is requested again only while every earlier
request for it was not granted.  In every other case the calls end with
exactly one `unlockscreen` on the record, `NULL` is returned and no window is
mapped; on success no `unlockscreen` call is made. -/
theorem lockscreen_grab_rounds (screen : Int) (rr : Bool) (srv : XScreen)
    (hs : 0 ≤ screen) :
    ((lockscreen false screen true rr srv).2 = some (lockOf screen srv)
        ↔ lockCondition srv.ptgrab srv.kbgrab)
    ∧ ((lockscreen false screen true rr srv).2 = none
        ↔ ¬ lockCondition srv.ptgrab srv.kbgrab)
    ∧ (lockscreen false screen true rr srv).1.count (Act.XGrabPointer srv.root) ≤ 6
    ∧ (lockscreen false screen true rr srv).1.count (Act.XGrabKeyboard srv.root) ≤ 6
    ∧ (lockscreen false screen true rr srv).1.count Act.nanosleep ≤ 6
    ∧ (∀ j, j + 1 < (lockscreen false screen true rr srv).1.count (Act.XGrabPointer srv.root) →
        srv.ptgrab j ≠ GrabSuccess)
    ∧ (∀ j, j + 1 < (lockscreen false screen true rr srv).1.count (Act.XGrabKeyboard srv.root) →
        srv.kbgrab j ≠ GrabSuccess)
    ∧ (¬ lockCondition srv.ptgrab srv.kbgrab →
        (∃ pre, (lockscreen false screen true rr srv).1
            = pre ++ unlockscreen .pam false (some (lockOf screen srv))
          ∧ ∀ a ∈ pre, a ∉ unlockscreen .pam false (some (lockOf screen srv)))
        ∧ ∀ w, Act.XMapRaised w ∉ (lockscreen false screen true rr srv).1)
    ∧ (lockCondition srv.ptgrab srv.kbgrab →
        ∀ a ∈ (lockscreen false screen true rr srv).1,
          a ∉ unlockscreen .pam false (some (lockOf screen srv))) := by
  have hiff := grabLoop_initial_iff rr (lockOf screen srv) srv.ptgrab srv.kbgrab
  have hP := grabLoop_pointer rr (lockOf screen srv) srv.ptgrab srv.kbgrab 6 (-1) (-1) 0 0
  have hK := grabLoop_keyboard rr (lockOf screen srv) srv.ptgrab srv.kbgrab 6 (-1) (-1) 0 0
  have hS := grabLoop_sleeps rr (lockOf screen srv) srv.ptgrab srv.kbgrab 6 (-1) (-1) 0 0
  have hA := grabLoop_acts rr (lockOf screen srv) srv.ptgrab srv.kbgrab 6 (-1) (-1) 0 0
  have hU := unlockscreen_not_retry (lockOf screen srv)
  rw [lockscreen_unfold screen rr srv hs]
  generalize grabLoop rr (lockOf screen srv) srv.ptgrab srv.kbgrab 6 (-1) (-1) 0 0 = g
    at hiff hP hK hS hA
  have hroot : (lockOf screen srv).root = srv.root := rfl
  rw [hroot] at hP hK hA
  by_cases hl : g.locked = true
  · have hc := hiff.mp hl
    rw [if_pos hl]
    have hcP : List.count (Act.XGrabPointer srv.root)
        ([Act.XAllocNamedColor screen 0, Act.XAllocNamedColor screen 1,
          Act.XAllocNamedColor screen 2, Act.XCreateWindow srv.root,
          Act.XCreateBitmapFromData srv.win, Act.XCreatePixmapCursor srv.pmap,
          Act.XDefineCursor srv.win] ++ g.trace)
        = List.count (Act.XGrabPointer srv.root) g.trace := by
      simp
    have hcK : List.count (Act.XGrabKeyboard srv.root)
        ([Act.XAllocNamedColor screen 0, Act.XAllocNamedColor screen 1,
          Act.XAllocNamedColor screen 2, Act.XCreateWindow srv.root,
          Act.XCreateBitmapFromData srv.win, Act.XCreatePixmapCursor srv.pmap,
          Act.XDefineCursor srv.win] ++ g.trace)
        = List.count (Act.XGrabKeyboard srv.root) g.trace := by
      simp
    have hcS : List.count Act.nanosleep
        ([Act.XAllocNamedColor screen 0, Act.XAllocNamedColor screen 1,
          Act.XAllocNamedColor screen 2, Act.XCreateWindow srv.root,
          Act.XCreateBitmapFromData srv.win, Act.XCreatePixmapCursor srv.pmap,
          Act.XDefineCursor srv.win] ++ g.trace)
        = List.count Act.nanosleep g.trace := by
      simp
    simp only [hcP, hcK, hcS]
    refine ⟨⟨fun _ => hc, fun _ => trivial⟩, ⟨fun h => by simp at h, fun h => absurd hc h⟩,
      hP.1, hK.1, hS, ?_, ?_, fun h => absurd hc h, ?_⟩
    · intro j hj
      exact hP.2.2 j (Nat.zero_le j) (by omega)
    · intro j hj
      exact hK.2.2 j (Nat.zero_le j) (by omega)
    · intro _ a ha hmem
      obtain ⟨u1, u2, u3, u4, u5, u6⟩ := hU a hmem
      rw [List.mem_append] at ha
      rcases ha with ha | ha
      · simp only [List.mem_cons, List.mem_singleton, List.not_mem_nil, or_false] at ha
        rcases ha with ha | ha | ha | ha | ha | ha | ha <;> subst ha <;> simp [isSetupAct] at u2
      · rcases hA.2 hl a ha with h | h | h | h
        · rw [u1] at h
          exact absurd h (by decide)
        · exact u4 _ h
        · exact u5 _ h
        · exact u6 _ h
  · have hc : ¬ lockCondition srv.ptgrab srv.kbgrab := fun h => hl (hiff.mpr h)
    have hlf : g.locked = false := by
      cases hg : g.locked
      · rfl
      · exact absurd hg hl
    rw [if_neg hl]
    have hsu := lockscreen_setup_acts screen srv
    generalize [Act.XAllocNamedColor screen 0, Act.XAllocNamedColor screen 1,
        Act.XAllocNamedColor screen 2, Act.XCreateWindow srv.root,
        Act.XCreateBitmapFromData srv.win, Act.XCreatePixmapCursor srv.pmap,
        Act.XDefineCursor srv.win] = su at hsu ⊢
    have hw : ∀ b ∈ (if g.kbgrab ≠ GrabSuccess then [Act.warnKeyboard screen] else [])
        ++ (if g.ptgrab ≠ GrabSuccess then [Act.warnPointer screen] else []),
        isWarnAct b = true := by
      intro b hb
      rw [List.mem_append] at hb
      rcases hb with hb | hb <;> split_ifs at hb <;> simp at hb <;> subst hb <;> rfl
    have hassoc : su ++ g.trace
          ++ (if g.kbgrab ≠ GrabSuccess then [Act.warnKeyboard screen] else [])
          ++ (if g.ptgrab ≠ GrabSuccess then [Act.warnPointer screen] else [])
          ++ unlockscreen .pam false (some (lockOf screen srv))
        = su ++ g.trace
          ++ ((if g.kbgrab ≠ GrabSuccess then [Act.warnKeyboard screen] else [])
            ++ (if g.ptgrab ≠ GrabSuccess then [Act.warnPointer screen] else []))
          ++ unlockscreen .pam false (some (lockOf screen srv)) := by
      simp only [List.append_assoc]
    rw [hassoc]
    generalize ((if g.kbgrab ≠ GrabSuccess then [Act.warnKeyboard screen] else [])
        ++ (if g.ptgrab ≠ GrabSuccess then [Act.warnPointer screen] else [])) = w at hw ⊢
    generalize hue : unlockscreen .pam false (some (lockOf screen srv)) = u at hU ⊢
    have hur : ∀ b ∈ u, isRetryAct b = false := fun b hb => (hU b hb).1
    have hcP := count_retry_frame (Act.XGrabPointer srv.root) rfl su g.trace w u hsu hw hur
    have hcK := count_retry_frame (Act.XGrabKeyboard srv.root) rfl su g.trace w u hsu hw hur
    have hcS := count_retry_frame Act.nanosleep rfl su g.trace w u hsu hw hur
    simp only [hcP, hcK, hcS]
    refine ⟨⟨fun h => by simp at h, fun h => absurd h hc⟩, ⟨fun _ => hc, fun _ => trivial⟩,
      hP.1, hK.1, hS, ?_, ?_, fun _ => ⟨⟨su ++ g.trace ++ w, rfl, ?_⟩, ?_⟩,
      fun h => absurd h hc⟩
    · intro j hj
      exact hP.2.2 j (Nat.zero_le j) (by omega)
    · intro j hj
      exact hK.2.2 j (Nat.zero_le j) (by omega)
    · intro a ha hmem
      obtain ⟨u1, u2, u3, _⟩ := hU a hmem
      simp only [List.mem_append] at ha
      rcases ha with (ha | ha) | ha
      · rw [hsu a ha] at u2
        exact absurd u2 (by decide)
      · rw [hA.1 hlf a ha] at u1
        exact absurd u1 (by decide)
      · rw [hw a ha] at u3
        exact absurd u3 (by decide)
    · intro wd hmem
      simp only [List.mem_append] at hmem
      rcases hmem with ((hm | hm) | hm) | hm
      · exact absurd (hsu _ hm) (by simp [isSetupAct])
      · exact absurd (hA.1 hlf _ hm) (by simp [isRetryAct])
      · exact absurd (hw _ hm) (by simp [isWarnAct])
      · exact (hU _ hm).2.2.2.1 wd rfl

/-- Witness of C10: on a screen whose pointer stays `AlreadyGrabbed`,
`lockscreen` returns NULL after six pointer requests. -/
theorem lockscreen_grab_rounds_witness :
    (0 : Int) ≤ 1
    ∧ (lockscreen false 1 true false exScreenBusy).2 = none
    ∧ ¬ lockCondition exScreenBusy.ptgrab exScreenBusy.kbgrab
    ∧ (lockscreen false 1 true false exScreenBusy).1.count (Act.XGrabPointer 21) = 6 :=
  ⟨by decide,
   (lockscreen_grab_rounds 1 false exScreenBusy (by decide)).2.1.mpr (by decide),
   by decide, by decide⟩

/-! ### C1: the authentication loop of `main` -/

/-- C1 (code at the failing input): when a screen failed to lock, the first
rejected attempt makes the loop of `main` call `blank(EMPTY)`, which faults at
the NULL entry of `locks` before `XBell` is reached; `main` does not return.
Shown for any lock array that starts with a locked and a failed screen, and for
`main` of both variants on two screens with the results `PAM_AUTH_ERR`,
`PAM_SUCCESS`. -/
theorem main_rejection_with_failed_screen (l : Lock) (rest : List (Option Lock))
    (more : List Int) :
    authLoop (some l :: none :: rest) (PAM_AUTH_ERR :: more)
        = ([Act.pam_authenticate PAM_AUTH_ERR, Act.blankCall .EMPTY,
            Act.XSetWindowBackground l.win (l.colors.getD 2 0), Act.XClearWindow l.win],
           .fault)
    ∧ (main .pam 2 exLockscreen 1 1 true true [PAM_AUTH_ERR, PAM_SUCCESS]).2 = .fault
    ∧ bellCount (main .pam 2 exLockscreen 1 1 true true [PAM_AUTH_ERR, PAM_SUCCESS]).1 = 0
    ∧ (main .plain 2 exLockscreenPlain 1 1 true true [PAM_AUTH_ERR, PAM_SUCCESS])
        = ([Act.XSync, Act.pam_start, Act.pam_authenticate PAM_AUTH_ERR,
            Act.blankCall .EMPTY, Act.XSetWindowBackground 2 12, Act.XClearWindow 2],
           .fault) :=
  ⟨rfl, rfl, by decide, rfl⟩

theorem blankLoop_all_locked (c : Color) :
    ∀ (locks : List (Option Lock)), (∀ l ∈ locks, l ≠ none) →
      (blankLoop c locks).2 = .ok
      ∧ bellCount (blankLoop c locks).1 = 0
      ∧ ∀ a ∈ (blankLoop c locks).1, isUnlockAct a = false := by
  intro locks
  induction locks with
  | nil =>
    intro _
    simp [blankLoop, bellCount]
  | cons l rest ih =>
    intro h
    cases l with
    | none => exact absurd rfl (h none (List.mem_cons_self _ _))
    | some l =>
      obtain ⟨i1, i2, i3⟩ := ih (fun x hx => h x (List.mem_cons_of_mem _ hx))
      unfold bellCount at i2 ⊢
      refine ⟨i1, ?_, ?_⟩
      · simp [blankLoop, i2]
      · intro a ha
        simp only [blankLoop, List.mem_cons] at ha
        rcases ha with ha | ha | ha
        · subst ha
          rfl
        · subst ha
          rfl
        · exact i3 a ha

/-- When every screen locked, `k` rejected attempts followed by a success give
exactly `k` `blank(EMPTY)` calls and `k` bells, the loop ends with success and
no `unlockscreen` call is made inside it. -/
theorem authLoop_all_locked (locks : List (Option Lock)) (hl : ∀ l ∈ locks, l ≠ none)
    (more : List Int) :
    ∀ (fails : List Int), (∀ r ∈ fails, r ≠ PAM_SUCCESS) →
      (authLoop locks (fails ++ PAM_SUCCESS :: more)).2 = .success
      ∧ blankCalls (authLoop locks (fails ++ PAM_SUCCESS :: more)).1
          = List.replicate fails.length .EMPTY
      ∧ bellCount (authLoop locks (fails ++ PAM_SUCCESS :: more)).1 = fails.length
      ∧ ∀ a ∈ (authLoop locks (fails ++ PAM_SUCCESS :: more)).1, isUnlockAct a = false := by
  intro fails
  induction fails with
  | nil =>
    intro _
    simp [authLoop, blankCalls, bellCount, isUnlockAct]
  | cons r fails ih =>
    intro hf
    have hr : r ≠ PAM_SUCCESS := hf r (List.mem_cons_self _ _)
    obtain ⟨i1, i2, i3, i4⟩ := ih (fun x hx => hf x (List.mem_cons_of_mem _ hx))
    obtain ⟨b1, b2, b3⟩ := blankLoop_all_locked .EMPTY locks hl
    have hb : blank locks .EMPTY = (Act.blankCall .EMPTY :: (blankLoop .EMPTY locks).1, .ok) := by
      simp [blank, b1]
    have hbc := blankCalls_blankLoop .EMPTY locks
    simp only [List.cons_append, authLoop, if_neg hr, hb]
    generalize (blankLoop .EMPTY locks).1 = bt at b2 b3 hbc
    generalize authLoop locks (fails ++ PAM_SUCCESS :: more) = ar at i1 i2 i3 i4
    have hcalls : ∀ (t1 t2 : List Act), blankCalls (t1 ++ t2) = blankCalls t1 ++ blankCalls t2 := by
      intro t1 t2
      induction t1 with
      | nil => rfl
      | cons a t1 ih1 => cases a <;> simp [blankCalls, ih1]
    unfold bellCount at b2 i3 ⊢
    refine ⟨i1, ?_, ?_, ?_⟩
    · simp [blankCalls, hcalls, hbc, i2, List.replicate_succ]
    · simp [List.count_append, List.count_cons, b2, i3]
    · intro a ha
      simp only [List.mem_cons, List.mem_append] at ha
      rcases ha with ha | ha | ha | ha | ha
      · subst ha
        rfl
      · subst ha
        rfl
      · exact b3 a ha
      · subst ha
        rfl
      · exact i4 a ha

theorem lockLoop_length (lockscreenOf : Nat → List Act × Option Lock) :
    ∀ (n screen : Nat), (lockLoop lockscreenOf n screen).2.length = n := by
  intro n
  induction n with
  | zero =>
    intro screen
    rfl
  | succ n ih =>
    intro screen
    simp [lockLoop, ih]

theorem countLocks_all_locked :
    ∀ (locks : List (Option Lock)), (∀ l ∈ locks, l ≠ none) →
      countLocks locks = locks.length := by
  intro locks
  induction locks with
  | nil =>
    intro _
    rfl
  | cons l rest ih =>
    intro h
    cases l with
    | none => exact absurd rfl (h none (List.mem_cons_self _ _))
    | some l => simp [countLocks, ih (fun x hx => h x (List.mem_cons_of_mem _ hx))]

/-- When every screen locked (and, in `slock-pam.c` with a command to spawn,
`fork` returned in the parent), `k` rejected attempts followed by a success
make `main` return 0, after `k` `blank(EMPTY)` calls and `k` bells; the
`unlockscreen` calls of `main` come after `pam_end`. -/
theorem main_all_locked (v : Variant) (nscreens : Nat)
    (lockscreenOf : Nat → List Act × Option Lock) (argc : Nat) (forkRes : Int)
    (fails more : List Int) (hn : 0 < nscreens)
    (hl : ∀ l ∈ (lockLoop lockscreenOf nscreens 0).2, l ≠ none)
    (hfork : 0 < forkRes) (hf : ∀ r ∈ fails, r ≠ PAM_SUCCESS) :
    main v nscreens lockscreenOf argc forkRes true true (fails ++ PAM_SUCCESS :: more)
      = ((lockLoop lockscreenOf nscreens 0).1 ++ [Act.XSync]
          ++ (if (decide (v = .pam) && decide (2 ≤ argc)) = true then [Act.fork] else [])
          ++ Act.pam_start
            :: (authLoop (lockLoop lockscreenOf nscreens 0).2 (fails ++ PAM_SUCCESS :: more)).1
          ++ Act.pam_end :: unlockLoop v (lockLoop lockscreenOf nscreens 0).2
          ++ [Act.freeLocks, Act.freePasswd, Act.XCloseDisplay], .exit 0)
    ∧ blankCalls (authLoop (lockLoop lockscreenOf nscreens 0).2
          (fails ++ PAM_SUCCESS :: more)).1 = List.replicate fails.length .EMPTY
    ∧ bellCount (authLoop (lockLoop lockscreenOf nscreens 0).2
          (fails ++ PAM_SUCCESS :: more)).1 = fails.length := by
  obtain ⟨a1, a2, a3, _⟩ := authLoop_all_locked _ hl more fails hf
  refine ⟨?_, a2, a3⟩
  have hc : countLocks (lockLoop lockscreenOf nscreens 0).2 ≠ 0 := by
    rw [countLocks_all_locked _ hl, lockLoop_length]
    omega
  have h1 : forkRes ≠ -1 := by omega
  have h2 : forkRes ≠ 0 := by omega
  unfold main
  simp only [if_neg hc, h1, h2, and_false, if_false, Bool.false_eq_true]
  generalize authLoop (lockLoop lockscreenOf nscreens 0).2 (fails ++ PAM_SUCCESS :: more) = ar
    at a1
  obtain ⟨t, e⟩ := ar
  simp only at a1
  subst a1
  rfl

/-- Witness of `main_all_locked`: one locked screen, one rejected attempt. -/
theorem main_all_locked_witness :
    (main .pam 1 exLockscreenOne 1 1 true true [PAM_AUTH_ERR, PAM_SUCCESS]).2 = .exit 0
    ∧ bellCount (main .pam 1 exLockscreenOne 1 1 true true [PAM_AUTH_ERR, PAM_SUCCESS]).1 = 1
    ∧ blankCalls (main .pam 1 exLockscreenOne 1 1 true true [PAM_AUTH_ERR, PAM_SUCCESS]).1
        = [.EMPTY] := by
  have h := main_all_locked .pam 1 exLockscreenOne 1 1 [PAM_AUTH_ERR] [] (by decide)
    (by decide) (by decide) (by decide)
  exact ⟨congrArg Prod.snd h.1, by decide, by decide⟩

/-! ### The passphrase `readpw` delivers -/

theorem take_set_le {l : List Nat} {n m : Nat} (a : Nat) (h : m ≤ n) :
    (l.set n a).take m = l.take m := by
  apply List.ext_getElem?
  intro i
  rw [List.getElem?_take, List.getElem?_take]
  split
  · rw [List.getElem?_set_ne (by omega)]
  · rfl

theorem memcpy_caller (src : List Nat) :
    ∀ (mem : List Nat) (off : Nat), off + src.length ≤ mem.length →
      ∃ m, memcpy .caller mem off src = some m ∧ m.length = mem.length
        ∧ m.take (off + src.length) = mem.take off ++ src := by
  induction src with
  | nil =>
    intro mem off _
    exact ⟨mem, rfl, rfl, by simp⟩
  | cons b bs ih =>
    intro mem off h
    simp only [List.length_cons] at h
    have hoff : off < mem.length := by omega
    obtain ⟨m, h1, h2, h3⟩ := ih (mem.set off b) (off + 1) (by simp; omega)
    refine ⟨m, ?_, ?_, ?_⟩
    · simp [memcpy, store, hoff, h1]
    · simpa using h2
    · have e : off + (b :: bs).length = off + 1 + bs.length := by
        simp only [List.length_cons]
        omega
      rw [e, h3, List.take_succ, take_set_le b (le_refl off), List.getElem?_set_self hoff]
      simp

theorem blank_all_locked (locks : List (Option Lock)) (hl : ∀ l ∈ locks, l ≠ none)
    (c : Color) : (blank locks c).2 = .ok :=
  (blankLoop_all_locked c locks hl).1

theorem repaint_all_locked (locks : List (Option Lock)) (hl : ∀ l ∈ locks, l ≠ none)
    (s : PwState) : (repaint locks s).2 = .next { s with llen := s.len } := by
  unfold repaint
  have h1 := blank_all_locked locks hl .INPUT
  have h2 := blank_all_locked locks hl .EMPTY
  split_ifs
  · split
    · rfl
    · rename_i heq
      rw [heq] at h1
      cases h1
  · split
    · rfl
    · rename_i heq
      rw [heq] at h2
      cases h2
  · rfl

theorem ignored_not_special {k : Nat} (h : ignored k = true) :
    k ≠ XK_Return ∧ k ≠ XK_Escape ∧ k ≠ XK_BackSpace := by
  refine ⟨?_, ?_, ?_⟩ <;> intro e <;> subst e <;> exact absurd h (by decide)

/-- One key that is not `Return` (and, in `slock-pam.c`, not `Escape`), with
every screen locked: the loop goes on and the state follows the reference
fold. -/
theorem readpwStep_key (v : Variant) (rr : Bool) (locks : List (Option Lock))
    (hl : ∀ l ∈ locks, l ≠ none) (acc : List Nat) (s : PwState) (key : Nat × List Nat)
    (hs : PwHolds acc s) (hk : normalize key.1 ≠ XK_Return) (hb : key.2.length ≤ 32)
    (hne : v = .pam → normalize key.1 ≠ XK_Escape) :
    ∃ s1, (readpwStep v rr locks s (.KeyPress key.1 key.2)).2 = .next s1
      ∧ PwHolds (refKey acc key) s1 := by
  obtain ⟨hp, hlen, htake, hlt, hll, hmem⟩ := hs
  unfold readpwStep
  simp only
  by_cases hign : ignored (normalize key.1) = true
  · obtain ⟨_, e1, e2⟩ := ignored_not_special hign
    rw [if_pos hign]
    refine ⟨s, rfl, ?_⟩
    unfold refKey
    rw [if_neg e1, if_neg e2, if_pos hign]
    exact ⟨hp, hlen, htake, hlt, hll, hmem⟩
  · rw [if_neg hign]
    unfold keySwitch refKey
    rw [if_neg hk]
    by_cases hesc : normalize key.1 = XK_Escape
    · rw [if_pos hesc, if_pos hesc]
      cases v with
      | pam => exact absurd hesc (hne rfl)
      | plain =>
        simp only
        rw [repaint_all_locked locks hl]
        refine ⟨_, rfl, ?_⟩
        exact ⟨hp, rfl, by simp, by simp [PASSLEN], rfl, hmem⟩
    · rw [if_neg hesc, if_neg hesc]
      by_cases hbs : normalize key.1 = XK_BackSpace
      · rw [if_pos hbs, if_pos hbs]
        by_cases h0 : s.len = 0
        · have hnil : acc = [] := by
            apply List.eq_nil_of_length_eq_zero
            omega
          simp only [h0, ne_eq, not_true_eq_false, if_false]
          rw [repaint_all_locked locks hl]
          refine ⟨_, rfl, ?_⟩
          subst hnil
          exact ⟨hp, h0, by simp [h0], hlt, by simp [h0], hmem⟩
        · simp only [ne_eq, h0, not_false_eq_true, if_true]
          cases v with
          | pam =>
            have hst : store s.passwd s.mem s.len 0 = some (s.mem.set s.len 0) := by
              simp [hp, store, hmem, hlt]
            simp only [hst]
            rw [repaint_all_locked locks hl]
            refine ⟨_, rfl, ?_⟩
            refine ⟨hp, ?_, ?_, ?_, rfl, ?_⟩
            · simp [← hlen]
            · show (s.mem.set s.len 0).take (s.len - 1) = acc.dropLast
              rw [take_set_le 0 (Nat.sub_le _ _), ← htake, List.dropLast_take (by omega)]
            · show s.len - 1 < PASSLEN
              omega
            · simp [hmem]
          | plain =>
            simp only
            rw [repaint_all_locked locks hl]
            refine ⟨_, rfl, ?_⟩
            refine ⟨hp, ?_, ?_, ?_, rfl, hmem⟩
            · simp [← hlen]
            · show s.mem.take (s.len - 1) = acc.dropLast
              rw [← htake, List.dropLast_take (by omega)]
            · show s.len - 1 < PASSLEN
              omega
      · rw [if_neg hbs, if_neg hbs, if_neg hign]
        have hmod : (s.len + key.2.length) % 2 ^ 32 = s.len + key.2.length := by
          apply Nat.mod_eq_of_lt
          unfold PASSLEN at hlt
          omega
        by_cases hc : key.2.length ≠ 0 ∧ iscntrl (key.2.headD 0) = false
            ∧ (s.len + key.2.length) % 2 ^ 32 < PASSLEN
        · rw [if_pos hc]
          have hc2 : key.2 ≠ [] ∧ iscntrl (key.2.headD 0) = false
              ∧ acc.length + key.2.length < PASSLEN := by
            refine ⟨?_, hc.2.1, ?_⟩
            · intro e
              exact hc.1 (by simp [e])
            · rw [← hlen, ← hmod]
              exact hc.2.2
          rw [if_pos hc2]
          have hfit : s.len + key.2.length < PASSLEN := by
            rw [← hmod]
            exact hc.2.2
          obtain ⟨m, hm1, hm2, hm3⟩ := memcpy_caller key.2 s.mem s.len (by omega)
          rw [hp, hm1]
          simp only
          have hst : store .caller m ((s.len + key.2.length) % 2 ^ 32) 0
              = some (m.set (s.len + key.2.length) 0) := by
            rw [hmod]
            simp [store, hm2, hmem, hfit]
          rw [hst]
          simp only
          rw [repaint_all_locked locks hl]
          refine ⟨_, rfl, ?_⟩
          refine ⟨rfl, ?_, ?_, ?_, rfl, ?_⟩
          · show (s.len + key.2.length) % 2 ^ 32 = (acc ++ key.2).length
            rw [hmod, hlen, List.length_append]
          · show (m.set (s.len + key.2.length) 0).take ((s.len + key.2.length) % 2 ^ 32)
              = acc ++ key.2
            rw [hmod, take_set_le 0 (le_refl _), hm3, htake]
          · show (s.len + key.2.length) % 2 ^ 32 < PASSLEN
            exact hc.2.2
          · simp [hm2, hmem]
        · rw [if_neg hc]
          have hc2 : ¬ (key.2 ≠ [] ∧ iscntrl (key.2.headD 0) = false
              ∧ acc.length + key.2.length < PASSLEN) := by
            rintro ⟨a1, a2, a3⟩
            apply hc
            refine ⟨?_, a2, ?_⟩
            · intro e
              exact a1 (List.eq_nil_of_length_eq_zero e)
            · rw [hmod, hlen]
              exact a3
          rw [if_neg hc2]
          rw [repaint_all_locked locks hl]
          exact ⟨_, rfl, hp, hlen, htake, hlt, rfl, hmem⟩

theorem readpwStep_return (v : Variant) (rr : Bool) (locks : List (Option Lock))
    (acc : List Nat) (s : PwState) (rk : Nat) (rt : List Nat)
    (hs : PwHolds acc s) (hr : normalize rk = XK_Return) :
    ∃ s1, readpwStep v rr locks s (.KeyPress rk rt) = ([], .returned s1)
      ∧ s1.len = acc.length ∧ s1.mem.take (s1.len + 1) = acc ++ [0] := by
  obtain ⟨hp, hlen, htake, hlt, hll, hmem⟩ := hs
  have hst : store .caller s.mem s.len 0 = some (s.mem.set s.len 0) := by
    simp [store, hmem, hlt]
  have hign : ignored XK_Return = false := by decide
  unfold readpwStep
  simp only [hr, hign, Bool.false_eq_true, if_false]
  unfold keySwitch
  simp only [if_true, hp, hst]
  refine ⟨_, rfl, hlen, ?_⟩
  show (s.mem.set s.len 0).take (s.len + 1) = acc ++ [0]
  rw [List.take_succ, take_set_le 0 (le_refl _), List.getElem?_set_self (by omega), htake]
  rfl

theorem readpwLoop_fold (v : Variant) (rr : Bool) (locks : List (Option Lock))
    (hl : ∀ l ∈ locks, l ≠ none) (rk : Nat) (rt : List Nat)
    (hr : normalize rk = XK_Return) :
    ∀ (keys : List (Nat × List Nat)) (acc : List Nat) (s : PwState),
      PwHolds acc s → (∀ key ∈ keys, normalize key.1 ≠ XK_Return) →
      (∀ key ∈ keys, key.2.length ≤ 32) →
      (v = .pam → ∀ key ∈ keys, normalize key.1 ≠ XK_Escape) →
      ∃ s1, (readpwLoop v rr locks s
            (keys.map (fun key => XEvent.KeyPress key.1 key.2) ++ [.KeyPress rk rt])).2
          = .returned s1 []
        ∧ s1.len = (keys.foldl refKey acc).length
        ∧ s1.mem.take (s1.len + 1) = keys.foldl refKey acc ++ [0] := by
  intro keys
  induction keys with
  | nil =>
    intro acc s hs _ _ _
    obtain ⟨s1, h1, h2, h3⟩ := readpwStep_return v rr locks acc s rk rt hs hr
    refine ⟨s1, ?_, h2, h3⟩
    simp [readpwLoop, h1]
  | cons key keys ih =>
    intro acc s hs hnr hb hne
    obtain ⟨s1, h1, h2⟩ := readpwStep_key v rr locks hl acc s key hs
      (hnr key (List.mem_cons_self _ _)) (hb key (List.mem_cons_self _ _))
      (fun hv => hne hv key (List.mem_cons_self _ _))
    obtain ⟨s2, g1, g2, g3⟩ := ih (refKey acc key) s1 h2
      (fun x hx => hnr x (List.mem_cons_of_mem _ hx))
      (fun x hx => hb x (List.mem_cons_of_mem _ hx))
      (fun hv x hx => hne hv x (List.mem_cons_of_mem _ hx))
    refine ⟨s2, ?_, g2, g3⟩
    simp only [List.map_cons, List.cons_append, readpwLoop]
    generalize readpwStep v rr locks s (XEvent.KeyPress key.1 key.2) = st at h1
    obtain ⟨t, f⟩ := st
    simp only at h1
    subst h1
    exact g1

/-- With every screen locked: for every sequence of keys (texts of at most 32
bytes) whose only `Return` or keypad `Enter` is the last one, and, in
`slock-pam.c`, with no `Escape` among them, `readpw` returns at that key and the
caller's buffer then holds the bytes of the reference fold followed by a NUL
byte.  In `slock.c` this covers every such sequence of keys. -/
theorem readpw_delivers_fold (v : Variant) (rr : Bool) (locks : List (Option Lock))
    (mem : List Nat) (keys : List (Nat × List Nat)) (rk : Nat) (rt : List Nat)
    (hl : ∀ l ∈ locks, l ≠ none) (hm : mem.length = PASSLEN)
    (hnr : ∀ key ∈ keys, normalize key.1 ≠ XK_Return)
    (hb : ∀ key ∈ keys, key.2.length ≤ 32) (hr : normalize rk = XK_Return)
    (hne : v = .pam → ∀ key ∈ keys, normalize key.1 ≠ XK_Escape) :
    ∃ s, (readpw v rr locks mem
          (keys.map (fun key => XEvent.KeyPress key.1 key.2) ++ [.KeyPress rk rt])).2
        = .returned s []
      ∧ s.len = (refFold keys).length
      ∧ s.mem.take (s.len + 1) = refFold keys ++ [0] := by
  apply readpwLoop_fold v rr locks hl rk rt hr keys []
    { passwd := .caller, mem := mem, len := 0, llen := 0 } ?_ hnr hb hne
  exact ⟨rfl, rfl, rfl, by simp [PASSLEN], rfl, hm⟩

/-- Witness of `readpw_delivers_fold`: in `slock.c` the keys `a`, `Escape`,
`b`, keypad `Enter` deliver `b`. -/
theorem readpw_delivers_fold_witness :
    refFold [(0x61, [0x61]), (XK_Escape, [27]), (0x62, [0x62])] = [0x62]
    ∧ ∃ s, (readpw .plain false [some exLock0] exZeros
          ([(0x61, [0x61]), (XK_Escape, [27]), (0x62, [0x62])].map
              (fun key => XEvent.KeyPress key.1 key.2) ++ [.KeyPress XK_KP_Enter [13]])).2
        = .returned s []
      ∧ s.len = (refFold [(0x61, [0x61]), (XK_Escape, [27]), (0x62, [0x62])]).length
      ∧ s.mem.take (s.len + 1)
          = refFold [(0x61, [0x61]), (XK_Escape, [27]), (0x62, [0x62])] ++ [0] :=
  ⟨by decide,
   readpw_delivers_fold .plain false [some exLock0] exZeros
     [(0x61, [0x61]), (XK_Escape, [27]), (0x62, [0x62])] XK_KP_Enter [13]
     (by decide) (by decide) (by decide) (by decide) (by decide) (by decide)⟩

/-! ### Stores stay inside the buffer while the pointer is the caller's -/

/-- While `passwd` is still the caller's buffer of `PASSLEN` bytes and
`len < PASSLEN`, no store of the switch leaves the buffer, for any key whose
text has at most 32 bytes (both variants). -/
theorem keySwitch_no_fault (v : Variant) (s : PwState) (ksym : Nat) (text : List Nat)
    (hp : s.passwd = .caller) (hl : s.len < PASSLEN) (hm : s.mem.length = PASSLEN)
    (hb : text.length ≤ 32) : keySwitch v s ksym text ≠ .fault := by
  have hst : store s.passwd s.mem s.len 0 = some (s.mem.set s.len 0) := by
    simp [hp, store, hm, hl]
  unfold keySwitch
  split_ifs with h1 h2 h3 h4 h5
  · simp [hst]
  · simp
  · cases v <;> simp [hst]
  · simp
  · have hmod : (s.len + text.length) % 2 ^ 32 = s.len + text.length := by
      apply Nat.mod_eq_of_lt
      unfold PASSLEN at hl
      omega
    have hfit : s.len + text.length < PASSLEN := by
      rw [← hmod]
      exact h5.2.2
    obtain ⟨m, hm1, hm2, _⟩ := memcpy_caller text s.mem s.len (by omega)
    have hst2 : store .caller m ((s.len + text.length) % 2 ^ 32) 0
        = some (m.set (s.len + text.length) 0) := by
      rw [hmod]
      simp [store, hm2, hm, hfit]
    rw [hp, hm1]
    simp only
    rw [hst2]
    simp
  · simp

/-- Witness of `keySwitch_no_fault`: the key `a` on the entry state. -/
theorem keySwitch_no_fault_witness :
    keySwitch .pam { passwd := .caller, mem := exZeros, len := 0, llen := 0 } 0x61 [0x61]
      ≠ .fault :=
  keySwitch_no_fault .pam { passwd := .caller, mem := exZeros, len := 0, llen := 0 }
    0x61 [0x61] rfl (by decide) (by decide) (by decide)

/-- In `slock.c` the switch never changes the pointer `passwd`. -/
theorem keySwitch_plain_pointer (s s1 : PwState) (ksym : Nat) (text : List Nat)
    (h : keySwitch .plain s ksym text = .next s1 ∨ keySwitch .plain s ksym text = .returned s1) :
    s1.passwd = s.passwd := by
  unfold keySwitch at h
  split_ifs at h with h1 h2 h3 h4 h5
  · split at h
    · simp at h
    · simp at h
      rw [← h]
      rfl
  · simp at h
    rw [← h]
    rfl
  · simp at h
    rw [← h]
  · simp at h
    rw [← h]
  · split at h
    · simp at h
    · split at h
      · simp at h
      · simp at h
        rw [← h]
  · simp at h
    rw [← h]

/-! ### `pamconv` with a single prompt -/

/-- With one prompt `pamconv` does what section 4.5 says: an echo-off prompt
gets the buffer `readpw` filled, any other style a null response; the return
code is 0 and `pamconv` returns `PAM_SUCCESS`. -/
theorem pamconv_single_prompt (v : Variant) (rr : Bool) (locks : List (Option Lock))
    (fresh : List Nat) (style : Int) (evs : List XEvent) :
    (style ≠ PAM_PROMPT_ECHO_OFF →
      pamconv v rr locks true true fresh [style] evs
        = ([], .done PAM_SUCCESS [{ resp := none, resp_retcode := 0 }] evs))
    ∧ (∀ t s rest, readpw v rr locks fresh evs = (t, .returned s rest) →
      pamconv v rr locks true true fresh [PAM_PROMPT_ECHO_OFF] evs
        = (t, .done PAM_SUCCESS [{ resp := some s.mem, resp_retcode := 0 }] rest)) := by
  constructor
  · intro h
    simp [pamconv, pamconvLoop, h]
  · intro t s rest h
    simp [pamconv, pamconvLoop, h]

/-- Witness of `pamconv_single_prompt`: one echo-off prompt answered with the
keys `a`, `Return` in `slock-pam.c`. -/
theorem pamconv_single_prompt_witness :
    ∃ t s, readpw .pam false [some exLock0] exFresh [keyA, keyReturn] = (t, .returned s [])
      ∧ pamconv .pam false [some exLock0] true true exFresh [PAM_PROMPT_ECHO_OFF]
          [keyA, keyReturn]
        = (t, .done PAM_SUCCESS [{ resp := some s.mem, resp_retcode := 0 }] [])
      ∧ s.mem.take 2 = [0x61, 0] :=
  ⟨_, _, rfl,
   (pamconv_single_prompt .pam false [some exLock0] exFresh PAM_PROMPT_ECHO_OFF
      [keyA, keyReturn]).2 _ _ _ rfl,
   rfl⟩

end Slock
